import Mathlib

/-!
# Expense categorization engine (`src/controllers/expenseController.js`)

A shallow embedding of the categorization code of the expense tracker:
`simpleKeywordCategorization`, `predictCategory` and the `categorizeBatch`
request handler, together with the storage operations of `models/expense.js`
and `models/category.js` they call; of the handlers `createExpense` and
`updateExpense`; of `generateRandomColors` and `sortExpensesByDate`
(`public/js/utils.js`); and of the database start-up of `server.js` and
`config/db-init.js`.

JavaScript strings are Lean strings.  The language built-ins `toLowerCase`
and `trim` are not part of the repository; they are taken as parameters
(`Builtins`), so every theorem holds for any implementation of them.  The
external world (database failures, replies of the completion provider) is an
oracle indexed by the number of external calls issued so far; every external
call is appended to a log.  Waits (`sleep`, `setTimeout` delays) are left out:
only the order of the steps is modelled.
-/

namespace ExpenseTracker

/-! ## Strings -/

/-- The string built-ins the controller relies on. -/
structure Builtins where
  /-- The method `String.prototype.toLowerCase`. -/
  toLowerCase : String → String
  /-- The method `String.prototype.trim`. -/
  trim : String → String

/-- Substring test on character lists: `k` occurs in `t` at some position. -/
def includesChars : List Char → List Char → Bool
  | [], k => k.isEmpty
  | c :: rest, k => k.isPrefixOf (c :: rest) || includesChars rest k

/-- The test `text.includes(keyword)` on strings. -/
def strIncludes (text keyword : String) : Bool :=
  includesChars text.data keyword.data

/-- Truthiness of a string value: only the empty string is falsy. -/
def truthy (s : String) : Bool := s != ""

/-- Truthiness of a value that is a string, `undefined` or `null`. -/
def truthyOpt : Option String → Bool
  | none => false
  | some s => truthy s

/-- ASCII lower-casing of one character. -/
def asciiLowerChar (c : Char) : Char :=
  if 65 ≤ c.toNat ∧ c.toNat ≤ 90 then Char.ofNat (c.toNat + 32) else c

/-- ASCII whitespace. -/
def asciiSpace (c : Char) : Bool :=
  c == ' ' || c == '\n' || c == '\t' || c == '\r'

/-- A concrete instance of the built-ins, exact on ASCII strings; used to
evaluate the code on concrete inputs. -/
def asciiBuiltins : Builtins where
  toLowerCase s := ⟨s.data.map asciiLowerChar⟩
  trim s := ⟨((s.data.dropWhile asciiSpace).reverse.dropWhile asciiSpace).reverse⟩

/-! ## `simpleKeywordCategorization` -/

/-- The `keywordMap` object literal, as `Object.entries` enumerates it
(insertion order). -/
def keywordMap : List (String × List String) :=
  [ ("food", ["grocery", "restaurant", "meal", "lunch", "dinner", "breakfast", "coffee",
      "pizza", "burger"]),
    ("transportation", ["gas", "fuel", "bus", "train", "taxi", "uber", "lyft", "subway",
      "car", "vehicle", "toll", "parking"]),
    ("housing", ["rent", "mortgage", "apartment", "home", "house", "property"]),
    ("utilities", ["electric", "water", "gas", "internet", "phone", "bill", "utility"]),
    ("entertainment", ["movie", "game", "concert", "show", "theater", "netflix", "spotify",
      "subscription"]),
    ("healthcare", ["doctor", "medical", "health", "medicine", "dental", "pharmacy",
      "hospital", "clinic"]),
    ("shopping", ["clothes", "shoes", "clothing", "amazon", "walmart", "target", "buy",
      "purchase"]),
    ("education", ["tuition", "book", "school", "college", "university", "course", "class"]) ]

/-- The loop condition of `simpleKeywordCategorization`:
`categories.includes(category) && keywords.some(keyword => text.includes(keyword))`. -/
def qualifies (text : String) (categories : List String) (entry : String × List String) : Bool :=
  categories.contains entry.1 && entry.2.any (fun keyword => strIncludes text keyword)

/-- The last line of `simpleKeywordCategorization`:
`categories.includes('Miscellaneous') ? 'Miscellaneous' : (categories[0] || 'Other')`. -/
def defaultCategory (categories : List String) : String :=
  if categories.contains "Miscellaneous" then "Miscellaneous"
  else match categories.head? with
    | some c => if truthy c then c else "Other"
    | none => "Other"

/-- The `for ... of Object.entries(keywordMap)` loop over the remaining
entries, followed by the default. -/
def keywordLoop (text : String) (categories : List String) :
    List (String × List String) → String
  | [] => defaultCategory categories
  | entry :: rest =>
    if qualifies text categories entry then entry.1
    else keywordLoop text categories rest

/-- The function `simpleKeywordCategorization(description, categories)`. -/
def simpleKeywordCategorization (js : Builtins) (description : String)
    (categories : List String) : String :=
  let text := js.toLowerCase description
  keywordLoop text categories keywordMap

/-! ## Storage (`models/expense.js`, `models/category.js`) -/

/-- A row of the `expenses` table.  `amount` (NUMERIC) and `expense_date`
(DATE) are values the controller only passes through. -/
structure Expense where
  id : Nat
  description : String
  amount : String
  category : Option String
  expense_date : String
  created_at : String
  deriving DecidableEq, Repr

/-- A row of the `categories` table. -/
structure Category where
  name : String
  frequency : Nat
  deriving DecidableEq, Repr

/-- A value of a property of a JSON request body; `undefined` is a missing
property, `object` any object or array, and `number m e` the finite double
`m * 2 ^ e`. -/
inductive JsValue where
  | undefined
  | null
  | boolean (b : Bool)
  | number (mantissa exponent : Int)
  | string (s : String)
  | object
  deriving DecidableEq, Repr

/-- The external calls the controller can issue. -/
inductive Call where
  | categoryGetAll
  | expenseGetById (id : Nat)
  | expenseUpdate (id : Nat) (description amount : String) (category : Option String)
      (expenseDate : String)
  | categoryIncrementUsage (categoryName : String)
  | chatCompletion (model prompt : String)
  | expenseCreate (description amount category expenseDate : JsValue)
  deriving DecidableEq, Repr

/-- The database tables and the log of external calls issued so far, oldest
first. -/
structure World where
  expenses : List Expense
  categories : List Category
  log : List Call
  deriving DecidableEq, Repr

/-- The environment of one run: process configuration and the behaviour of
the external services.  `dbFails n c` tells whether the database query `c`,
issued as external call number `n`, rejects; `provider n prompt` is the
content of the first choice of the completion requested as external call
number `n`, or `none` when the request rejects or carries no content. -/
structure Env where
  OPENAI_API_KEY : Option String
  OPENAI_MODEL : Option String
  dbFails : Nat → Call → Bool
  provider : Nat → String → Option String

/-- Record an external call in the log. -/
def issue (c : Call) (w : World) : World :=
  { w with log := w.log ++ [c] }

/-- The error a rejected query throws. -/
def queryError : String := "query failed"

/-- The method `Expense.getById(id)`: `SELECT * FROM expenses WHERE id = $1`, first row. -/
def Expense.getById (env : Env) (id : Nat) (w : World) :
    Except String (Option Expense) × World :=
  let c := Call.expenseGetById id
  if env.dbFails w.log.length c then (.error queryError, issue c w)
  else (.ok (w.expenses.find? (fun e => e.id == id)), issue c w)

/-- The `UPDATE expenses SET ... WHERE id = $5` statement on the table. -/
def updateRows (id : Nat) (description amount : String) (category : Option String)
    (expenseDate : String) (rows : List Expense) : List Expense :=
  rows.map (fun e =>
    if e.id == id then
      { e with description := description, amount := amount, category := category,
               expense_date := expenseDate }
    else e)

/-- The method `Expense.update(id, description, amount, category, expenseDate)`; returns
the updated row (`RETURNING *`, first row). -/
def Expense.update (env : Env) (id : Nat) (description amount : String)
    (category : Option String) (expenseDate : String) (w : World) :
    Except String (Option Expense) × World :=
  let c := Call.expenseUpdate id description amount category expenseDate
  if env.dbFails w.log.length c then (.error queryError, issue c w)
  else
    let rows := updateRows id description amount category expenseDate w.expenses
    (.ok (rows.find? (fun e => e.id == id)), issue c { w with expenses := rows })

/-- Insert a row into a list ordered by frequency, descending. -/
def insertByFrequency (c : Category) : List Category → List Category
  | [] => [c]
  | d :: rest =>
    if d.frequency ≤ c.frequency then c :: d :: rest
    else d :: insertByFrequency c rest

/-- The clause `ORDER BY frequency DESC`; rows of equal frequency keep their
table order. -/
def orderByFrequencyDesc : List Category → List Category
  | [] => []
  | c :: rest => insertByFrequency c (orderByFrequencyDesc rest)

/-- The method `Category.getAll()`. -/
def Category.getAll (env : Env) (w : World) : Except String (List Category) × World :=
  let c := Call.categoryGetAll
  if env.dbFails w.log.length c then (.error queryError, issue c w)
  else (.ok (orderByFrequencyDesc w.categories), issue c w)

/-- The statement `INSERT INTO categories (name, frequency) VALUES ($1, 1)
ON CONFLICT (name) DO UPDATE SET frequency = categories.frequency + 1`. -/
def upsertCategory (categoryName : String) : List Category → List Category
  | [] => [{ name := categoryName, frequency := 1 }]
  | c :: rest =>
    if c.name == categoryName then { c with frequency := c.frequency + 1 } :: rest
    else c :: upsertCategory categoryName rest

/-- The method `Category.incrementUsage(categoryName)`; returns the row (`RETURNING *`). -/
def Category.incrementUsage (env : Env) (categoryName : String) (w : World) :
    Except String (Option Category) × World :=
  let c := Call.categoryIncrementUsage categoryName
  if env.dbFails w.log.length c then (.error queryError, issue c w)
  else
    let rows := upsertCategory categoryName w.categories
    (.ok (rows.find? (fun r => r.name == categoryName)),
      issue c { w with categories := rows })

/-! ## `predictCategory` -/

/-- The user prompt of `predictCategory`. -/
def buildPrompt (description : String) (existingCategories : List String) : String :=
  "Given the expense description \"" ++ description ++
  "\", categorize it into one of the following categories: " ++
  ", ".intercalate existingCategories ++ ". \n" ++
  "    Consider the context and meaning of the expense. " ++
  "Respond with only the category name, nothing else.\n    \n" ++
  "    Example format:\n    Description: \"Groceries at Walmart\"\n    Response: Food\n" ++
  "    \n    Description: \"" ++ description ++ "\"\n    Response:"

/-- The expression `process.env.OPENAI_MODEL || 'gpt-3.5-turbo'`. -/
def modelName (env : Env) : String :=
  match env.OPENAI_MODEL with
  | some m => if truthy m then m else "gpt-3.5-turbo"
  | none => "gpt-3.5-turbo"

/-- The function `predictCategory(description, existingCategories)`.  A rejected request
and a reply without content both end in the `catch` block. -/
def predictCategory (js : Builtins) (env : Env) (description : String)
    (existingCategories : List String) (w : World) : String × World :=
  if !truthyOpt env.OPENAI_API_KEY then
    (simpleKeywordCategorization js description existingCategories, w)
  else
    let prompt := buildPrompt description existingCategories
    let w1 := issue (Call.chatCompletion (modelName env) prompt) w
    match env.provider w.log.length prompt with
    | none => (simpleKeywordCategorization js description existingCategories, w1)
    | some content =>
      let predictedCategory := js.trim content
      let validCategory := existingCategories.find?
        (fun category => js.toLowerCase category == js.toLowerCase predictedCategory)
      if truthyOpt validCategory then (validCategory.getD "", w1)
      else (simpleKeywordCategorization js description existingCategories, w1)

/-! ## `categorizeBatch` -/

/-- One entry of the `results` array; absent properties are `none`. -/
structure Outcome where
  id : Nat
  status : String
  previousCategory : Option String := none
  newCategory : Option String := none
  message : Option String := none
  deriving DecidableEq, Repr

/-- The body of a response. -/
inductive Body where
  | error (error : String)
  | results (results : List Outcome)
  | expense (row : Option Expense)
  deriving DecidableEq, Repr

/-- A response: `res.status(status).json(body)`. -/
structure Response where
  status : Nat
  body : Body
  deriving DecidableEq, Repr

/-- The value of `req.body.expenseIds`. -/
inductive IdsValue where
  /-- The property is missing (`undefined`). -/
  | undefined
  /-- A value that is not an array, with its truthiness. -/
  | nonArray (isTruthy : Bool)
  /-- An array of ids. -/
  | array (ids : List Nat)
  deriving DecidableEq, Repr

/-- Truthiness of the `expenseIds` value (every array is truthy). -/
def IdsValue.truthy : IdsValue → Bool
  | .undefined => false
  | .nonArray t => t
  | .array _ => true

/-- The test `Array.isArray(expenseIds)`. -/
def IdsValue.isArray : IdsValue → Bool
  | .array _ => true
  | _ => false

/-- The ids of an array value. -/
def IdsValue.ids : IdsValue → List Nat
  | .array ids => ids
  | _ => []

/-- The expression `expense.category || 'None'`. -/
def previousCategoryOf (expense : Expense) : String :=
  match expense.category with
  | some c => if truthy c then c else "None"
  | none => "None"

/-- The outcome `{ id, status: 'error', message }`. -/
def errorOutcome (id : Nat) (message : String) : Outcome :=
  { id := id, status := "error", message := some message }

/-- The outcome `{ id, status: 'success', previousCategory, newCategory }`. -/
def successOutcome (id : Nat) (previousCategory newCategory : String) : Outcome :=
  { id := id, status := "success", previousCategory := some previousCategory,
    newCategory := some newCategory }

/-- The `try` block of the loop body for a found expense, with its `catch`:
always yields an outcome. -/
def categorizeFound (js : Builtins) (env : Env) (categoryNames : List String) (id : Nat)
    (expense : Expense) (w : World) : Outcome × World :=
  let (categoryPrediction, w1) := predictCategory js env expense.description categoryNames w
  if truthy categoryPrediction then
    match Expense.update env id expense.description expense.amount (some categoryPrediction)
        expense.expense_date w1 with
    | (.error _, w2) => (errorOutcome id "AI service error", w2)
    | (.ok _, w2) =>
      match Category.incrementUsage env categoryPrediction w2 with
      | (.error _, w3) => (errorOutcome id "AI service error", w3)
      | (.ok _, w3) =>
        (successOutcome id (previousCategoryOf expense) categoryPrediction, w3)
  else (errorOutcome id "Could not predict category", w1)

/-- One iteration of the `for (const id of expenseIds)` loop.  An error is a
throw out of the loop (`Expense.getById` is outside the inner `try`). -/
def processItem (js : Builtins) (env : Env) (categoryNames : List String) (id : Nat)
    (w : World) : Except String Outcome × World :=
  match Expense.getById env id w with
  | (.error e, w1) => (.error e, w1)
  | (.ok none, w1) => (.ok (errorOutcome id "Expense not found"), w1)
  | (.ok (some expense), w1) =>
    let (outcome, w2) := categorizeFound js env categoryNames id expense w1
    (.ok outcome, w2)

/-- The loop over the remaining ids; `results` is the array built so far. -/
def processItems (js : Builtins) (env : Env) (categoryNames : List String) :
    List Nat → List Outcome → World → Except String (List Outcome) × World
  | [], results, w => (.ok results, w)
  | id :: rest, results, w =>
    match processItem js env categoryNames id w with
    | (.error e, w1) => (.error e, w1)
    | (.ok outcome, w1) => processItems js env categoryNames rest (results ++ [outcome]) w1

/-- The guard `!expenseIds || !Array.isArray(expenseIds) || expenseIds.length === 0`. -/
def invalidIds (expenseIds : IdsValue) : Bool :=
  !expenseIds.truthy || !expenseIds.isArray || expenseIds.ids.length == 0

/-- The handler `categorizeBatch(req, res)`: the response sent and the world afterwards. -/
def categorizeBatch (js : Builtins) (env : Env) (expenseIds : IdsValue) (w : World) :
    Response × World :=
  if invalidIds expenseIds then
    ({ status := 400, body := .error "Please provide valid expense IDs" }, w)
  else
    match Category.getAll env w with
    | (.error _, w1) => ({ status := 500, body := .error "Failed to categorize expenses" }, w1)
    | (.ok existingCategories, w1) =>
      let categoryNames := existingCategories.map (fun cat => cat.name)
      match processItems js env categoryNames expenseIds.ids [] w1 with
      | (.error _, w2) =>
        ({ status := 500, body := .error "Failed to categorize expenses" }, w2)
      | (.ok results, w2) => ({ status := 200, body := .results results }, w2)

/-- Storage reads: `Category.getAll` and `Expense.getById`. -/
def Call.isRead : Call → Bool
  | .categoryGetAll => true
  | .expenseGetById _ => true
  | _ => false

/-- Storage writes: `Expense.update` and `Category.incrementUsage`. -/
def Call.isWrite : Call → Bool
  | .expenseUpdate _ _ _ _ _ => true
  | .categoryIncrementUsage _ => true
  | _ => false

/-- The response `res.status(500).json({ error: 'Failed to categorize expenses' })`. -/
def failedResponse : Response :=
  { status := 500, body := .error "Failed to categorize expenses" }

/-- The response `res.json({ results })`. -/
def resultsResponse (results : List Outcome) : Response :=
  { status := 200, body := .results results }

/-- The `Expense.update` call `categorizeBatch` issues for a found expense
and a predicted category. -/
def updateCall (id : Nat) (expense : Expense) (category : String) : Call :=
  Call.expenseUpdate id expense.description expense.amount (some category)
    expense.expense_date

/-! ## Concrete inputs -/

/-- An environment without credential in which no external call fails. -/
def quietEnv : Env where
  OPENAI_API_KEY := none
  OPENAI_MODEL := none
  dbFails _ _ := false
  provider _ _ := none

/-- An expense row with the given id, description and category. -/
def mkExpense (id : Nat) (description : String) (category : Option String) : Expense :=
  { id := id, description := description, amount := "12.50", category := category,
    expense_date := "2024-01-15", created_at := "2024-01-15 10:00:00" }

/-- A world with one expense and the lower-case categories food and transportation. -/
def smallWorld : World where
  expenses := [mkExpense 2 "Lunch and gas" none]
  categories := [⟨"transportation", 3⟩, ⟨"food", 5⟩]
  log := []

/-- An environment with a credential whose provider always replies `reply`. -/
def replyEnv (reply : String) : Env where
  OPENAI_API_KEY := some "sk-test"
  OPENAI_MODEL := none
  dbFails _ _ := false
  provider _ _ := some reply

/-- An environment with a credential whose provider call always throws. -/
def throwEnv : Env where
  OPENAI_API_KEY := some "sk-test"
  OPENAI_MODEL := none
  dbFails _ _ := false
  provider _ _ := none

/-- A world without rows and without calls. -/
def emptyWorld : World where
  expenses := []
  categories := []
  log := []

/-- An environment with a credential in which every storage write rejects
and every provider call throws. -/
def writeFailEnv : Env where
  OPENAI_API_KEY := some "sk-test"
  OPENAI_MODEL := none
  dbFails _ c := Call.isWrite c
  provider _ _ := none

/-- An environment without credential in which exactly the read of expense
`id` rejects. -/
def readFailEnv (id : Nat) : Env where
  OPENAI_API_KEY := none
  OPENAI_MODEL := none
  dbFails _ c := c == Call.expenseGetById id
  provider _ _ := none

/-- A world with one uncategorized expense and an empty `categories` table. -/
def noCategoriesWorld : World where
  expenses := [mkExpense 2 "Lunch and gas" none]
  categories := []
  log := []

/-- An environment whose credential is the empty string and whose provider
would answer "food" if it were called. -/
def emptyKeyEnv : Env where
  OPENAI_API_KEY := some ""
  OPENAI_MODEL := none
  dbFails _ _ := false
  provider _ _ := some "food"

/-- The columns of an `expenses` row other than `category`. -/
def Expense.otherColumns (e : Expense) : Nat × String × String × String × String :=
  (e.id, e.description, e.amount, e.expense_date, e.created_at)

/-- The `categories` table read as a map from name to frequency. -/
def frequencyOf (categoryName : String) (rows : List Category) : Option Nat :=
  (rows.find? (fun r => r.name == categoryName)).map (fun r => r.frequency)

/-- A world with the expenses 2 and 5 and the lower-case categories food and
transportation. -/
def twoExpensesWorld : World where
  expenses := [mkExpense 2 "Lunch and gas" none, mkExpense 5 "Bus ticket" (some "Travel")]
  categories := [⟨"transportation", 3⟩, ⟨"food", 5⟩]
  log := []

/-- A world whose `categories` table holds Food with frequency 3 and Travel
with frequency 1. -/
def foodTravelWorld : World where
  expenses := []
  categories := [⟨"Food", 3⟩, ⟨"Travel", 1⟩]
  log := []

/-- An environment without credential in which exactly the calls of
`Category.incrementUsage` reject. -/
def incrementFailEnv : Env where
  OPENAI_API_KEY := none
  OPENAI_MODEL := none
  dbFails _ c := match c with
    | .categoryIncrementUsage _ => true
    | _ => false
  provider _ _ := none

/-- The category names inserted by `createTablesQuery`, in the order of the
statement. -/
def seededCategoryNames : List String :=
  ["Food", "Transportation", "Housing", "Entertainment", "Healthcare", "Utilities",
    "Shopping", "Education"]

/-! ## Browser utilities (`public/js/utils.js`) -/

/-- The template literal of `generateRandomColors`, ``hsl(${hue}, 70%, 60%)``,
for a hue that is a natural number. -/
def hslColor (hue : Nat) : String :=
  "hsl(" ++ toString hue ++ ", 70%, 60%)"

/-- The loop `for (let i = 0; i < count; i++)` of `generateRandomColors`,
with the array built so far.  The first argument bounds the number of
iterations left; `count` iterations are enough from `i = 0`. -/
def generateRandomColorsLoop (count : Nat) : Nat → Nat → List String → List String
  | 0, _, colors => colors
  | fuel + 1, i, colors =>
    if i < count then
      generateRandomColorsLoop count fuel (i + 1) (colors ++ [hslColor ((i * 137) % 360)])
    else colors

/-- The function `generateRandomColors(count)`. -/
def generateRandomColors (count : Nat) : List String :=
  generateRandomColorsLoop count count 0 []

/-- The decimal number written after the first four characters of a colour
string: the hue of an `hsl(...)` colour. -/
def hueOfColor (color : String) : Nat :=
  ((color.data.drop 4).takeWhile Char.isDigit).foldl (fun acc c => acc * 10 + (c.toNat - 48)) 0

/-- The comparator of `sortExpensesByDate`,
`new Date(b.expense_date) - new Date(a.expense_date)`, where `parseDate` gives
the time value of a date string and `none` for an invalid date.  The
difference with an invalid date is `NaN`, which `Array.prototype.sort` treats
as 0. -/
def compareByDate (parseDate : String → Option Int) (a b : Expense) : Int :=
  match parseDate b.expense_date, parseDate a.expense_date with
  | some tb, some ta => tb - ta
  | _, _ => 0

/-- The method `Array.prototype.sort(compare)` on a copy of the array, as a
stable insertion sort: `a` is placed before `b` when `compare(a, b) <= 0`. -/
def jsSort {α : Type} (compare : α → α → Int) (xs : List α) : List α :=
  xs.insertionSort (fun a b => compare a b ≤ 0)

/-- The function `sortExpensesByDate(expenses)`. -/
def sortExpensesByDate (parseDate : String → Option Int) (expenses : List Expense) :
    List Expense :=
  jsSort (compareByDate parseDate) expenses

/-- Time values of three sample dates (milliseconds since the epoch, UTC). -/
def sampleParseDate (s : String) : Option Int :=
  if s = "2024-01-15" then some 1705276800000
  else if s = "2024-03-01" then some 1709251200000
  else if s = "2023-12-31" then some 1703980800000
  else none

/-- An expense row with the given id and date. -/
def expenseOn (id : Nat) (date : String) : Expense :=
  { id := id, description := "Lunch", amount := "12.50", category := none,
    expense_date := date, created_at := "2024-01-15 10:00:00" }

/-! ## `createExpense` and `updateExpense` -/

/-- Truthiness of a body value. -/
def JsValue.isTruthy : JsValue → Bool
  | .undefined => false
  | .null => false
  | .boolean b => b
  | .number mantissa _ => mantissa != 0
  | .string s => s != ""
  | .object => true

/-- What the handlers take from outside the request: how the database driver
writes a non-string parameter into a column, the result of
`moment().format('YYYY-MM-DD')` and the value of `CURRENT_TIMESTAMP`. -/
structure Runtime where
  render : JsValue → String
  today : String
  now : String

/-- The text a parameter value is stored as; a string is stored as it is. -/
def toColumn (rt : Runtime) : JsValue → String
  | .string s => s
  | v => rt.render v

/-- The stored value of a nullable column: `undefined` and `null` are stored
as NULL. -/
def toNullableColumn (rt : Runtime) : JsValue → Option String
  | .undefined => none
  | .null => none
  | v => some (toColumn rt v)

/-- The request body of `createExpense` and `updateExpense` after
destructuring. -/
structure ExpenseBody where
  description : JsValue
  amount : JsValue
  category : JsValue
  expenseDate : JsValue
  deriving DecidableEq, Repr

/-- The next value of the `SERIAL` column `id`: one more than every id of the
table. -/
def freshId (rows : List Expense) : Nat :=
  (rows.map (fun e => e.id)).foldl max 0 + 1

/-- The method `Expense.create(description, amount, category, expenseDate)`:
`INSERT INTO expenses ... RETURNING *`, first row. -/
def Expense.create (env : Env) (rt : Runtime)
    (description amount category expenseDate : JsValue) (w : World) :
    Except String Expense × World :=
  let c := Call.expenseCreate description amount category expenseDate
  if env.dbFails w.log.length c then (.error queryError, issue c w)
  else
    let row : Expense :=
      { id := freshId w.expenses, description := toColumn rt description,
        amount := toColumn rt amount, category := toNullableColumn rt category,
        expense_date := toColumn rt expenseDate, created_at := rt.now }
    (.ok row, issue c { w with expenses := w.expenses ++ [row] })

/-- The guard of `createExpense`: `!description || !amount || !expenseDate`. -/
def missingRequired (body : ExpenseBody) : Bool :=
  !body.description.isTruthy || !body.amount.isTruthy || !body.expenseDate.isTruthy

/-- The handler `createExpense(req, res)`: the response sent and the world
afterwards. -/
def createExpense (env : Env) (rt : Runtime) (body : ExpenseBody) (w : World) :
    Response × World :=
  if missingRequired body then
    ({ status := 400, body := .error "Description, amount, and date are required" }, w)
  else
    let formattedDate :=
      if body.expenseDate.isTruthy then body.expenseDate else JsValue.string rt.today
    match Expense.create env rt body.description body.amount body.category formattedDate w with
    | (.error _, w1) => ({ status := 500, body := .error "Failed to create expense" }, w1)
    | (.ok newExpense, w1) =>
      if body.category.isTruthy then
        match Category.incrementUsage env (toColumn rt body.category) w1 with
        | (.error _, w2) => ({ status := 500, body := .error "Failed to create expense" }, w2)
        | (.ok _, w2) => ({ status := 201, body := .expense (some newExpense) }, w2)
      else ({ status := 201, body := .expense (some newExpense) }, w1)

/-- The expression `value || stored` for a column that is not nullable. -/
def orStored (rt : Runtime) (value : JsValue) (stored : String) : String :=
  if value.isTruthy then toColumn rt value else stored

/-- The expression `category || existingExpense.category`. -/
def orStoredCategory (rt : Runtime) (value : JsValue) (stored : Option String) :
    Option String :=
  if value.isTruthy then some (toColumn rt value) else stored

/-- The comparison `category === existingExpense.category` of a body value
with a stored text or NULL. -/
def strictEqualsStored (value : JsValue) (stored : Option String) : Bool :=
  match value, stored with
  | .string s, some t => s == t
  | .null, none => true
  | _, _ => false

/-- The handler `updateExpense(req, res)` for the expense `id`: the response
sent and the world afterwards. -/
def updateExpense (env : Env) (rt : Runtime) (id : Nat) (body : ExpenseBody) (w : World) :
    Response × World :=
  match Expense.getById env id w with
  | (.error _, w1) => ({ status := 500, body := .error "Failed to update expense" }, w1)
  | (.ok none, w1) => ({ status := 404, body := .error "Expense not found" }, w1)
  | (.ok (some existingExpense), w1) =>
    match Expense.update env id
        (orStored rt body.description existingExpense.description)
        (orStored rt body.amount existingExpense.amount)
        (orStoredCategory rt body.category existingExpense.category)
        (orStored rt body.expenseDate existingExpense.expense_date) w1 with
    | (.error _, w2) => ({ status := 500, body := .error "Failed to update expense" }, w2)
    | (.ok updatedExpense, w2) =>
      if body.category.isTruthy && !strictEqualsStored body.category existingExpense.category
      then
        match Category.incrementUsage env (toColumn rt body.category) w2 with
        | (.error _, w3) => ({ status := 500, body := .error "Failed to update expense" }, w3)
        | (.ok _, w3) => ({ status := 200, body := .expense updatedExpense }, w3)
      else ({ status := 200, body := .expense updatedExpense }, w2)

/-- A runtime for concrete inputs. -/
def sampleRuntime : Runtime where
  render v := match v with
    | .number 25 (-1) => "12.50"
    | .number 3 0 => "3.00"
    | _ => "0.00"
  today := "2024-02-01"
  now := "2024-02-01 09:00:00"

/-- A world with the expense 2 in category Food and the categories Food and
Travel. -/
def categorizedWorld : World where
  expenses := [mkExpense 2 "Lunch and gas" (some "Food")]
  categories := [⟨"Food", 3⟩, ⟨"Travel", 1⟩]
  log := []

/-- Calls of `Category.incrementUsage`. -/
def Call.isIncrementUsage : Call → Bool
  | .categoryIncrementUsage _ => true
  | _ => false

/-- The `Expense.update` call `updateExpense` issues for a stored expense. -/
def updateExpenseCall (rt : Runtime) (id : Nat) (body : ExpenseBody) (existing : Expense) :
    Call :=
  Call.expenseUpdate id (orStored rt body.description existing.description)
    (orStored rt body.amount existing.amount)
    (orStoredCategory rt body.category existing.category)
    (orStored rt body.expenseDate existing.expense_date)

/-- The condition `category && category !== existingExpense.category`. -/
def categoryChanged (body : ExpenseBody) (existing : Expense) : Bool :=
  body.category.isTruthy && !strictEqualsStored body.category existing.category

/-! ## Start-up (`server.js`, `config/db-init.js`) -/

/-- The queries of one pass of the `try` block of `initDatabase`: the
connection check `SELECT 1 as ping`, the table creation, `SELECT NOW()` and
the listing of the tables. -/
inductive InitQuery where
  | ping
  | createTables
  | serverTime
  | tablesCheck
  deriving DecidableEq, Repr

/-- The constant `MAX_DB_INIT_ATTEMPTS` of `server.js`. -/
def MAX_DB_INIT_ATTEMPTS : Nat := 5

/-- One pass of the `try` block of `initDatabase`: the four queries in order,
up to the first that rejects.  `fails n` tells whether the query issued as
number `n` of the start-up rejects; the result tells whether the pass
completed, with the queries issued so far. -/
def initPass (fails : Nat → Bool) (queries : List InitQuery) : Bool × List InitQuery :=
  if fails queries.length then (false, queries ++ [.ping])
  else if fails (queries.length + 1) then (false, queries ++ [.ping, .createTables])
  else if fails (queries.length + 2) then
    (false, queries ++ [.ping, .createTables, .serverTime])
  else if fails (queries.length + 3) then
    (false, queries ++ [.ping, .createTables, .serverTime, .tablesCheck])
  else (true, queries ++ [.ping, .createTables, .serverTime, .tablesCheck])

/-- The loop `for (let attempt = 1; attempt <= retries; attempt++)` of
`initDatabase`, the waits between passes left out.  The result is `true` when
the promise resolves and `false` when the last error is thrown.  The first
argument bounds the iterations left; `retries` are enough from `attempt = 1`. -/
def initDatabaseLoop (fails : Nat → Bool) (retries : Nat) :
    Nat → Nat → List InitQuery → Bool × List InitQuery
  | 0, _, queries => (true, queries)
  | fuel + 1, attempt, queries =>
    if attempt ≤ retries then
      match initPass fails queries with
      | (true, q) => (true, q)
      | (false, q) =>
        if attempt = retries then (false, q)
        else initDatabaseLoop fails retries fuel (attempt + 1) q
    else (true, queries)

/-- The call `initDatabase()` of `server.js`, with the default `retries = 5`. -/
def initDatabase (fails : Nat → Bool) (queries : List InitQuery) : Bool × List InitQuery :=
  initDatabaseLoop fails 5 5 1 queries

/-- The state of the start-up: the counter `currentAttempt`, the queries
issued so far, and whether a `setTimeout(attemptDatabaseInit, delay)` is
scheduled and has not fired yet. -/
structure Startup where
  currentAttempt : Nat
  queries : List InitQuery
  timerPending : Bool
  deriving DecidableEq, Repr

/-- One run of `attemptDatabaseInit`. -/
def attemptDatabaseInit (fails : Nat → Bool) (s : Startup) : Startup :=
  let currentAttempt := s.currentAttempt + 1
  match initDatabase fails s.queries with
  | (true, q) => { currentAttempt := currentAttempt, queries := q, timerPending := false }
  | (false, q) =>
    if currentAttempt < MAX_DB_INIT_ATTEMPTS then
      { currentAttempt := currentAttempt, queries := q, timerPending := true }
    else { currentAttempt := currentAttempt, queries := q, timerPending := false }

/-- The timers of the start-up firing one after the other while one is
scheduled, at most as many as the first argument. -/
def runTimers (fails : Nat → Bool) : Nat → Startup → Startup
  | 0, s => s
  | fuel + 1, s =>
    if s.timerPending then runTimers fails fuel (attemptDatabaseInit fails s) else s

/-- The start-up of `server.js`: the call `attemptDatabaseInit()` at the end
of the module, then the timers it schedules. -/
def serverStart (fails : Nat → Bool) : Startup :=
  runTimers fails MAX_DB_INIT_ATTEMPTS
    (attemptDatabaseInit fails { currentAttempt := 0, queries := [], timerPending := false })

/-- The number of connection checks `SELECT 1 as ping` among the queries. -/
def pingCount (queries : List InitQuery) : Nat :=
  queries.count InitQuery.ping

/-- An environment without credential in which every storage write rejects
and the read of expense `id` rejects. -/
def writeAndReadFailEnv (id : Nat) : Env where
  OPENAI_API_KEY := none
  OPENAI_MODEL := none
  dbFails _ c := Call.isWrite c || c == Call.expenseGetById id
  provider _ _ := none

/-! ## Lemmas on the keyword classifier -/

theorem keywordLoop_append_of_not_qualifies (text : String) (categories : List String)
    (pre rest : List (String × List String))
    (hpre : ∀ e ∈ pre, qualifies text categories e = false) :
    keywordLoop text categories (pre ++ rest) = keywordLoop text categories rest := by
  induction pre with
  | nil => rfl
  | cons e pre ih =>
    have he : qualifies text categories e = false := hpre e (List.mem_cons_self _ _)
    have hrest : ∀ x ∈ pre, qualifies text categories x = false :=
      fun x hx => hpre x (List.mem_cons_of_mem _ hx)
    simp [keywordLoop, he, ih hrest]

theorem contains_eq_true_iff_mem (categories : List String) (c : String) :
    categories.contains c = true ↔ c ∈ categories := by
  simp

theorem defaultCategory_mem_or_other (categories : List String) :
    defaultCategory categories ∈ categories ∨
      (defaultCategory categories = "Other" ∧
        (categories.head? = none ∨ categories.head? = some "")) := by
  unfold defaultCategory
  by_cases hm : categories.contains "Miscellaneous" = true
  · left
    simp only [hm, if_true]
    exact (contains_eq_true_iff_mem _ _).1 hm
  · simp only [hm]
    cases categories with
    | nil => right; simp
    | cons c rest =>
      by_cases hc : truthy c = true
      · left; simp [hc]
      · right
        have : c = "" := by
          simpa [truthy] using hc
        subst this
        simp [truthy]

theorem keywordLoop_mem_or_other (text : String) (categories : List String)
    (entries : List (String × List String)) :
    keywordLoop text categories entries ∈ categories ∨
      (keywordLoop text categories entries = "Other" ∧
        (categories.head? = none ∨ categories.head? = some "")) := by
  induction entries with
  | nil => exact defaultCategory_mem_or_other categories
  | cons e rest ih =>
    by_cases hq : qualifies text categories e = true
    · left
      simp only [keywordLoop, hq, if_true]
      have : categories.contains e.1 = true := by
        simp only [qualifies, Bool.and_eq_true] at hq
        exact hq.1
      exact (contains_eq_true_iff_mem _ _).1 this
    · simpa [keywordLoop, hq] using ih

/-! ## Claims on `simpleKeywordCategorization` and `predictCategory` -/

/-- C1: `simpleKeywordCategorization` returns the first category of the fixed
order food, transportation, housing, utilities, entertainment, healthcare,
shopping, education that is an element of the category list and has a keyword
occurring in the lower-cased description: if an entry of the keyword table
qualifies and no entry before it does, its category is the result. -/
theorem simpleKeywordCategorization_first_match (js : Builtins) (description : String)
    (categories : List String) (pre post : List (String × List String))
    (category : String) (keywords : List String)
    (hsplit : keywordMap = pre ++ (category, keywords) :: post)
    (hmem : category ∈ categories)
    (hkw : ∃ keyword ∈ keywords, strIncludes (js.toLowerCase description) keyword = true)
    (hpre : ∀ e ∈ pre, ¬ (e.1 ∈ categories ∧
      ∃ keyword ∈ e.2, strIncludes (js.toLowerCase description) keyword = true)) :
    simpleKeywordCategorization js description categories = category ∧
      keywordMap.map Prod.fst = ["food", "transportation", "housing", "utilities",
        "entertainment", "healthcare", "shopping", "education"] := by
  refine ⟨?_, rfl⟩
  have hpre' : ∀ e ∈ pre, qualifies (js.toLowerCase description) categories e = false := by
    intro e he
    have h := hpre e he
    by_contra hq
    apply h
    have hq' : qualifies (js.toLowerCase description) categories e = true := by
      simpa using hq
    simp only [qualifies, Bool.and_eq_true, List.any_eq_true] at hq'
    exact ⟨(contains_eq_true_iff_mem _ _).1 hq'.1, hq'.2⟩
  have hq : qualifies (js.toLowerCase description) categories (category, keywords) = true := by
    simp only [qualifies, Bool.and_eq_true, List.any_eq_true]
    exact ⟨(contains_eq_true_iff_mem _ _).2 hmem, hkw⟩
  unfold simpleKeywordCategorization
  simp only [hsplit]
  rw [keywordLoop_append_of_not_qualifies _ _ _ _ hpre']
  simp [keywordLoop, hq]

/-- Witness for C1: "Gas bill" with the list utilities, transportation: food
does not qualify, transportation does and is returned although utilities
(later in the order, earlier in the list) qualifies too. -/
theorem simpleKeywordCategorization_first_match_witness :
    simpleKeywordCategorization asciiBuiltins "Gas bill" ["utilities", "transportation"]
        = "transportation" ∧
      keywordMap.map Prod.fst = ["food", "transportation", "housing", "utilities",
        "entertainment", "healthcare", "shopping", "education"] :=
  simpleKeywordCategorization_first_match asciiBuiltins "Gas bill"
    ["utilities", "transportation"] (keywordMap.take 1) (keywordMap.drop 2) "transportation"
    ["gas", "fuel", "bus", "train", "taxi", "uber", "lyft", "subway", "car", "vehicle",
      "toll", "parking"]
    (by decide) (by decide) ⟨"gas", by decide, by decide⟩ (by decide)

/-- Counterexample for C2: with an empty category list (here without
credential) `predictCategory` returns the literal 'Other', which matches no
entry of the list. -/
theorem predictCategory_outside_list :
    (predictCategory asciiBuiltins quietEnv "Team offsite" [] emptyWorld).1 = "Other" ∧
      ¬ ∃ c ∈ ([] : List String), asciiBuiltins.toLowerCase c = asciiBuiltins.toLowerCase
        (predictCategory asciiBuiltins quietEnv "Team offsite" [] emptyWorld).1 := by
  refine ⟨by decide, ?_⟩
  rintro ⟨c, hc, -⟩
  cases hc

/-- C2 (amended): the name returned by `predictCategory` is an entry of the
category list it was given, spelled as in the list, for every provider
behaviour; the only other value it can return is the literal 'Other', and it
does so only when the list is empty or its first entry is the empty string. -/
theorem predictCategory_mem_or_other (js : Builtins) (env : Env) (description : String)
    (categories : List String) (w : World) :
    (predictCategory js env description categories w).1 ∈ categories ∨
      ((predictCategory js env description categories w).1 = "Other" ∧
        (categories.head? = none ∨ categories.head? = some "")) := by
  have hkw := keywordLoop_mem_or_other (js.toLowerCase description) categories keywordMap
  unfold predictCategory
  by_cases hkey : truthyOpt env.OPENAI_API_KEY = true
  · simp only [hkey, Bool.not_true, Bool.false_eq_true, if_false]
    cases hp : env.provider w.log.length (buildPrompt description categories) with
    | none => exact hkw
    | some content =>
      simp only []
      cases hf : categories.find?
          (fun category => js.toLowerCase category == js.toLowerCase (js.trim content)) with
      | none => simpa [truthyOpt] using hkw
      | some c =>
        by_cases hc : truthy c = true
        · left
          simpa [truthyOpt, hc] using List.mem_of_find?_eq_some hf
        · simpa [truthyOpt, hc] using hkw
  · simpa [hkey] using hkw

/-- C3: `predictCategory` returns exactly the result of
`simpleKeywordCategorization` on the same description and list when no
credential is configured, when the provider call throws, and when the trimmed
reply equals no entry of the list ignoring case. -/
theorem predictCategory_fallback (js : Builtins) (env : Env) (description : String)
    (categories : List String) (w : World)
    (h : truthyOpt env.OPENAI_API_KEY = false ∨
      env.provider w.log.length (buildPrompt description categories) = none ∨
      ∃ content, env.provider w.log.length (buildPrompt description categories) = some content ∧
        ∀ c ∈ categories, js.toLowerCase c ≠ js.toLowerCase (js.trim content)) :
    (predictCategory js env description categories w).1 =
      simpleKeywordCategorization js description categories := by
  unfold predictCategory
  by_cases hkey : truthyOpt env.OPENAI_API_KEY = true
  · simp only [hkey, Bool.not_true, Bool.false_eq_true, if_false]
    rcases h with h | h | ⟨content, hc, hno⟩
    · rw [hkey] at h; cases h
    · simp [h]
    · have hf : categories.find?
          (fun category => js.toLowerCase category == js.toLowerCase (js.trim content)) = none := by
        rw [List.find?_eq_none]
        intro c hc'
        simpa using hno c hc'
      simp [hc, hf, truthyOpt]
  · simp [hkey]

/-- Witness for C3, one instance per case: no credential, a throwing provider,
and the out-of-vocabulary reply "Groceries". -/
theorem predictCategory_fallback_witness :
    ((predictCategory asciiBuiltins quietEnv "Lunch" ["food", "Travel"] emptyWorld).1 =
        simpleKeywordCategorization asciiBuiltins "Lunch" ["food", "Travel"] ∧
      (predictCategory asciiBuiltins throwEnv "Lunch" ["food", "Travel"] emptyWorld).1 =
        simpleKeywordCategorization asciiBuiltins "Lunch" ["food", "Travel"]) ∧
      (predictCategory asciiBuiltins (replyEnv " Groceries ") "Lunch" ["food", "Travel"]
        emptyWorld).1 = simpleKeywordCategorization asciiBuiltins "Lunch" ["food", "Travel"] :=
  ⟨⟨predictCategory_fallback asciiBuiltins quietEnv "Lunch" ["food", "Travel"] emptyWorld
      (Or.inl (by decide)),
    predictCategory_fallback asciiBuiltins throwEnv "Lunch" ["food", "Travel"] emptyWorld
      (Or.inr (Or.inl rfl))⟩,
    predictCategory_fallback asciiBuiltins (replyEnv " Groceries ") "Lunch" ["food", "Travel"]
      emptyWorld (Or.inr (Or.inr ⟨" Groceries ", rfl, by decide⟩))⟩

theorem find?_eq_some_of_split {α : Type} (p : α → Bool) (pre post : List α) (c : α)
    (hc : p c = true) (hpre : ∀ x ∈ pre, p x = false) :
    (pre ++ c :: post).find? p = some c := by
  induction pre with
  | nil => simp [List.find?, hc]
  | cons x pre ih =>
    have hx : p x = false := hpre x (List.mem_cons_self _ _)
    simp [List.find?, hx, ih (fun y hy => hpre y (List.mem_cons_of_mem _ hy))]

/-- Counterexample for C4: the list contains the empty string and the reply is
blank.  The trimmed reply equals the first entry, yet `predictCategory`
returns "food" (the keyword fallback), not that entry. -/
theorem predictCategory_empty_match_falls_back :
    truthyOpt (replyEnv " ").OPENAI_API_KEY = true ∧
      asciiBuiltins.toLowerCase "" = asciiBuiltins.toLowerCase (asciiBuiltins.trim " ") ∧
      (predictCategory asciiBuiltins (replyEnv " ") "lunch" ["", "food"] emptyWorld).1
        = "food" := by
  decide

/-- C4 (amended): when a credential is configured and the trimmed reply equals
some entry of the list ignoring case, `predictCategory` returns the first such
entry, spelled as in the list, provided that entry is not the empty string. -/
theorem predictCategory_valid_reply (js : Builtins) (env : Env) (description : String)
    (pre post : List String) (c content : String) (w : World)
    (hkey : truthyOpt env.OPENAI_API_KEY = true)
    (hreply : env.provider w.log.length (buildPrompt description (pre ++ c :: post))
      = some content)
    (hc : js.toLowerCase c = js.toLowerCase (js.trim content))
    (hpre : ∀ x ∈ pre, js.toLowerCase x ≠ js.toLowerCase (js.trim content))
    (hne : c ≠ "") :
    (predictCategory js env description (pre ++ c :: post) w).1 = c := by
  have hf : (pre ++ c :: post).find?
      (fun category => js.toLowerCase category == js.toLowerCase (js.trim content)) = some c := by
    apply find?_eq_some_of_split
    · simpa using hc
    · intro x hx
      simpa using hpre x hx
  have ht : truthy c = true := by
    simpa [truthy] using hne
  unfold predictCategory
  simp only [hkey, Bool.not_true, Bool.false_eq_true, if_false, hreply, hf]
  simp [truthyOpt, ht]

/-- Witness for C4: the reply " FOOD " selects the entry "Food" of the list
Travel, Food, food. -/
theorem predictCategory_valid_reply_witness :
    (predictCategory asciiBuiltins (replyEnv " FOOD ") "Team offsite"
      (["Travel"] ++ "Food" :: ["food"]) emptyWorld).1 = "Food" :=
  predictCategory_valid_reply asciiBuiltins (replyEnv " FOOD ") "Team offsite"
    ["Travel"] ["food"] "Food" " FOOD " emptyWorld (by decide) rfl (by decide) (by decide)
    (by decide)

/-! ## Lemmas on the batch loop -/

theorem categorizeFound_id (js : Builtins) (env : Env) (names : List String) (id : Nat)
    (expense : Expense) (w : World) :
    (categorizeFound js env names id expense w).1.id = id := by
  unfold categorizeFound
  simp only []
  split
  · split
    · rfl
    · split <;> rfl
  · rfl

theorem processItem_ok_id (js : Builtins) (env : Env) (names : List String) (id : Nat)
    (w w1 : World) (o : Outcome) (h : processItem js env names id w = (.ok o, w1)) :
    o.id = id := by
  unfold processItem at h
  split at h
  · cases h
  · cases h; rfl
  · next expense w0 _ =>
    simp only [Prod.mk.injEq, Except.ok.injEq] at h
    rw [← h.1]
    exact categorizeFound_id js env names id expense w0

theorem processItems_ok (js : Builtins) (env : Env) (names : List String) (ids : List Nat) :
    ∀ (acc : List Outcome) (w w1 : World) (results : List Outcome),
      processItems js env names ids acc w = (.ok results, w1) →
      ∃ tail, results = acc ++ tail ∧ tail.map Outcome.id = ids := by
  induction ids with
  | nil =>
    intro acc w w1 results h
    simp only [processItems, Prod.mk.injEq, Except.ok.injEq] at h
    exact ⟨[], by simp [h.1], rfl⟩
  | cons id rest ih =>
    intro acc w w1 results h
    unfold processItems at h
    split at h
    · cases h
    · next o w0 ho =>
      obtain ⟨tail, ht, hids⟩ := ih _ _ _ _ h
      refine ⟨o :: tail, by simp [ht], ?_⟩
      simp [hids, processItem_ok_id js env names id w w0 o ho]

theorem processItems_append (js : Builtins) (env : Env) (names : List String)
    (pre rest : List Nat) :
    ∀ (acc : List Outcome) (w : World),
      processItems js env names (pre ++ rest) acc w =
        match processItems js env names pre acc w with
        | (.error e, w1) => (.error e, w1)
        | (.ok r1, w1) => processItems js env names rest r1 w1 := by
  induction pre with
  | nil => intro acc w; simp [processItems]
  | cons id pre ih =>
    intro acc w
    simp only [List.cons_append, processItems]
    split
    · rfl
    · exact ih _ _

theorem processItems_step (js : Builtins) (env : Env) (names : List String)
    (pre post : List Nat) (id : Nat) (acc r1 : List Outcome) (w w1 w2 : World) (o : Outcome)
    (hpre : processItems js env names pre acc w = (.ok r1, w1))
    (hitem : processItem js env names id w1 = (.ok o, w2)) :
    processItems js env names (pre ++ id :: post) acc w =
      processItems js env names post (r1 ++ [o]) w2 := by
  rw [processItems_append, hpre]
  simp only [processItems, hitem]

theorem processItem_read_fail (js : Builtins) (env : Env) (names : List String) (id : Nat)
    (w : World) (hfail : env.dbFails w.log.length (Call.expenseGetById id) = true) :
    processItem js env names id w = (.error queryError, issue (Call.expenseGetById id) w) := by
  simp [processItem, Expense.getById, hfail]

theorem processItem_not_found (js : Builtins) (env : Env) (names : List String) (id : Nat)
    (w : World) (hread : env.dbFails w.log.length (Call.expenseGetById id) = false)
    (hmiss : w.expenses.find? (fun e => e.id == id) = none) :
    processItem js env names id w =
      (.ok (errorOutcome id "Expense not found"), issue (Call.expenseGetById id) w) := by
  simp [processItem, Expense.getById, hread, hmiss]

theorem processItem_found (js : Builtins) (env : Env) (names : List String) (id : Nat)
    (expense : Expense) (w : World)
    (hread : env.dbFails w.log.length (Call.expenseGetById id) = false)
    (hfound : w.expenses.find? (fun e => e.id == id) = some expense) :
    processItem js env names id w =
      (.ok (categorizeFound js env names id expense (issue (Call.expenseGetById id) w)).1,
        (categorizeFound js env names id expense (issue (Call.expenseGetById id) w)).2) := by
  simp [processItem, Expense.getById, hread, hfound]

theorem processItem_error (js : Builtins) (env : Env) (names : List String) (id : Nat)
    (w w1 : World) (e : String) (h : processItem js env names id w = (.error e, w1)) :
    env.dbFails w.log.length (Call.expenseGetById id) = true := by
  by_contra hf
  have hread : env.dbFails w.log.length (Call.expenseGetById id) = false := by
    simpa using hf
  cases hfind : w.expenses.find? (fun e => e.id == id) with
  | none =>
    rw [processItem_not_found js env names id w hread hfind] at h
    cases h
  | some expense =>
    rw [processItem_found js env names id expense w hread hfind] at h
    cases h

theorem processItems_error (js : Builtins) (env : Env) (names : List String)
    (ids : List Nat) :
    ∀ (acc : List Outcome) (w w1 : World) (e : String),
      processItems js env names ids acc w = (.error e, w1) →
      ∃ n id, env.dbFails n (Call.expenseGetById id) = true := by
  induction ids with
  | nil => intro acc w w1 e h; simp [processItems] at h
  | cons id rest ih =>
    intro acc w w1 e h
    unfold processItems at h
    split at h
    · next e0 w0 he =>
      exact ⟨w.log.length, id, processItem_error js env names id w w0 e0 he⟩
    · exact ih _ _ _ _ h

theorem invalidIds_array (ids : List Nat) (hne : ids ≠ []) :
    invalidIds (.array ids) = false := by
  cases ids with
  | nil => exact absurd rfl hne
  | cons a rest => simp [invalidIds, IdsValue.truthy, IdsValue.isArray, IdsValue.ids]

theorem categorizeBatch_array (js : Builtins) (env : Env) (ids : List Nat) (w : World)
    (cats : List Category) (w0 : World) (hne : ids ≠ [])
    (hall : Category.getAll env w = (.ok cats, w0)) :
    categorizeBatch js env (.array ids) w =
      match processItems js env (cats.map (fun cat => cat.name)) ids [] w0 with
      | (.error _, w2) => (failedResponse, w2)
      | (.ok results, w2) => (resultsResponse results, w2) := by
  unfold categorizeBatch
  simp only [invalidIds_array ids hne, Bool.false_eq_true, if_false, hall, IdsValue.ids]
  rfl

theorem categorizeBatch_getAll_fail (js : Builtins) (env : Env) (ids : List Nat) (w : World)
    (hne : ids ≠ []) (hfail : env.dbFails w.log.length Call.categoryGetAll = true) :
    (categorizeBatch js env (.array ids) w).1 = failedResponse := by
  unfold categorizeBatch
  simp [invalidIds_array ids hne, Category.getAll, hfail, failedResponse]

theorem getAll_cases (env : Env) (w : World) :
    (env.dbFails w.log.length Call.categoryGetAll = true ∧
        Category.getAll env w = (.error queryError, issue Call.categoryGetAll w)) ∨
      (env.dbFails w.log.length Call.categoryGetAll = false ∧
        Category.getAll env w =
          (.ok (orderByFrequencyDesc w.categories), issue Call.categoryGetAll w)) := by
  unfold Category.getAll
  cases h : env.dbFails w.log.length Call.categoryGetAll <;> simp [h]

theorem keywordMap_names_truthy : ∀ e ∈ keywordMap, truthy e.1 = true := by
  decide

theorem defaultCategory_truthy (categories : List String) :
    truthy (defaultCategory categories) = true := by
  unfold defaultCategory
  split
  · decide
  · split
    · next c _ =>
      by_cases hc : truthy c = true
      · simp [hc]
      · simp only [hc]; rfl
    · decide

theorem keywordLoop_truthy (text : String) (categories : List String)
    (entries : List (String × List String)) (h : ∀ e ∈ entries, truthy e.1 = true) :
    truthy (keywordLoop text categories entries) = true := by
  induction entries with
  | nil => exact defaultCategory_truthy categories
  | cons e rest ih =>
    unfold keywordLoop
    split
    · exact h e (List.mem_cons_self _ _)
    · exact ih (fun x hx => h x (List.mem_cons_of_mem _ hx))

theorem simpleKeywordCategorization_truthy (js : Builtins) (description : String)
    (categories : List String) :
    truthy (simpleKeywordCategorization js description categories) = true :=
  keywordLoop_truthy _ _ _ keywordMap_names_truthy

theorem simpleKeywordCategorization_nil (js : Builtins) (description : String) :
    simpleKeywordCategorization js description [] = "Other" := by
  simp [simpleKeywordCategorization, keywordMap, keywordLoop, qualifies, defaultCategory]

theorem predictCategory_cases (js : Builtins) (env : Env) (description : String)
    (categories : List String) (w : World) :
    ∃ w1, w1.expenses = w.expenses ∧ w1.categories = w.categories ∧
      (predictCategory js env description categories w =
          (simpleKeywordCategorization js description categories, w1) ∨
        ∃ c ∈ categories, truthy c = true ∧
          predictCategory js env description categories w = (c, w1)) := by
  unfold predictCategory
  by_cases hkey : truthyOpt env.OPENAI_API_KEY = true
  · simp only [hkey, Bool.not_true, Bool.false_eq_true, if_false]
    refine ⟨issue (Call.chatCompletion (modelName env) (buildPrompt description categories)) w,
      rfl, rfl, ?_⟩
    cases hp : env.provider w.log.length (buildPrompt description categories) with
    | none => left; rfl
    | some content =>
      simp only []
      cases hf : categories.find?
          (fun category => js.toLowerCase category == js.toLowerCase (js.trim content)) with
      | none => left; simp [truthyOpt]
      | some c =>
        by_cases hc : truthy c = true
        · right
          exact ⟨c, List.mem_of_find?_eq_some hf, hc, by simp [truthyOpt, hc]⟩
        · left; simp [truthyOpt, hc]
  · exact ⟨w, rfl, rfl, Or.inl (by simp [hkey])⟩

theorem predictCategory_truthy (js : Builtins) (env : Env) (description : String)
    (categories : List String) (w : World) :
    truthy (predictCategory js env description categories w).1 = true := by
  obtain ⟨w1, -, -, h | ⟨c, -, hc, h⟩⟩ := predictCategory_cases js env description categories w
  · rw [h]; exact simpleKeywordCategorization_truthy js description categories
  · rw [h]; exact hc

theorem predictCategory_nil (js : Builtins) (env : Env) (description : String) (w : World) :
    (predictCategory js env description [] w).1 = "Other" := by
  obtain ⟨w1, -, -, h | ⟨c, hc, -, -⟩⟩ := predictCategory_cases js env description [] w
  · rw [h]; exact simpleKeywordCategorization_nil js description
  · cases hc

theorem predictCategory_tables (js : Builtins) (env : Env) (description : String)
    (categories : List String) (w : World) :
    (predictCategory js env description categories w).2.expenses = w.expenses ∧
      (predictCategory js env description categories w).2.categories = w.categories := by
  obtain ⟨w1, he, hc, h | ⟨c, -, -, h⟩⟩ := predictCategory_cases js env description categories w
  · rw [h]; exact ⟨he, hc⟩
  · rw [h]; exact ⟨he, hc⟩

theorem categorizeFound_update_fail (js : Builtins) (env : Env) (names : List String)
    (id : Nat) (expense : Expense) (w : World)
    (hfail : env.dbFails (predictCategory js env expense.description names w).2.log.length
      (updateCall id expense (predictCategory js env expense.description names w).1) = true) :
    categorizeFound js env names id expense w =
      (errorOutcome id "AI service error",
        issue (updateCall id expense (predictCategory js env expense.description names w).1)
          (predictCategory js env expense.description names w).2) := by
  unfold updateCall at hfail
  simp [categorizeFound, predictCategory_truthy, Expense.update, hfail, updateCall]

theorem categorizeFound_increment_fail (js : Builtins) (env : Env) (names : List String)
    (id : Nat) (expense : Expense) (w : World)
    (hupd : env.dbFails (predictCategory js env expense.description names w).2.log.length
      (updateCall id expense (predictCategory js env expense.description names w).1) = false)
    (hfail : env.dbFails ((predictCategory js env expense.description names w).2.log.length + 1)
      (Call.categoryIncrementUsage (predictCategory js env expense.description names w).1)
        = true) :
    (categorizeFound js env names id expense w).1 = errorOutcome id "AI service error" := by
  unfold updateCall at hupd
  simp [categorizeFound, predictCategory_truthy, Expense.update, hupd,
    Category.incrementUsage, issue, hfail]

theorem categorizeFound_success (js : Builtins) (env : Env) (names : List String)
    (id : Nat) (expense : Expense) (w : World)
    (hupd : env.dbFails (predictCategory js env expense.description names w).2.log.length
      (updateCall id expense (predictCategory js env expense.description names w).1) = false)
    (hinc : env.dbFails ((predictCategory js env expense.description names w).2.log.length + 1)
      (Call.categoryIncrementUsage (predictCategory js env expense.description names w).1)
        = false) :
    (categorizeFound js env names id expense w).1 =
        successOutcome id (previousCategoryOf expense)
          (predictCategory js env expense.description names w).1 ∧
      (categorizeFound js env names id expense w).2.expenses =
        updateRows id expense.description expense.amount
          (some (predictCategory js env expense.description names w).1)
          expense.expense_date w.expenses ∧
      (categorizeFound js env names id expense w).2.categories =
        upsertCategory (predictCategory js env expense.description names w).1
          w.categories := by
  unfold updateCall at hupd
  obtain ⟨he, hc⟩ := predictCategory_tables js env expense.description names w
  simp [categorizeFound, predictCategory_truthy, Expense.update, hupd,
    Category.incrementUsage, issue, hinc, he, hc]

theorem categorizeBatch_item (js : Builtins) (env : Env) (w w0 w1 w2 : World)
    (cats : List Category) (pre post : List Nat) (id : Nat) (r1 : List Outcome) (o : Outcome)
    (hall : Category.getAll env w = (.ok cats, w0))
    (hpre : processItems js env (cats.map (fun cat => cat.name)) pre [] w0 = (.ok r1, w1))
    (hitem : processItem js env (cats.map (fun cat => cat.name)) id w1 = (.ok o, w2)) :
    processItems js env (cats.map (fun cat => cat.name)) (pre ++ id :: post) [] w0 =
        processItems js env (cats.map (fun cat => cat.name)) post (r1 ++ [o]) w2 ∧
      ∀ results, (categorizeBatch js env (.array (pre ++ id :: post)) w).1.body
          = .results results →
        results.length = (pre ++ id :: post).length ∧ results[pre.length]? = some o := by
  have hstep := processItems_step js env _ pre post id [] r1 w0 w1 w2 o hpre hitem
  refine ⟨hstep, ?_⟩
  intro results hres
  rw [categorizeBatch_array js env _ w _ _ (by simp) hall, hstep] at hres
  obtain ⟨t1, ht1, hlen1⟩ := processItems_ok js env _ _ _ _ _ _ hpre
  have hr1 : r1.length = pre.length := by
    rw [ht1, ← hlen1]; simp
  cases hpost : processItems js env (cats.map (fun cat => cat.name)) post (r1 ++ [o]) w2 with
  | mk r w3 =>
    rw [hpost] at hres
    cases r with
    | error e => cases hres
    | ok res =>
      simp only [resultsResponse, Body.results.injEq] at hres
      subst hres
      obtain ⟨t2, ht2, hlen2⟩ := processItems_ok js env _ _ _ _ _ _ hpost
      subst ht2
      refine ⟨?_, ?_⟩
      · rw [← hlen2]; simp [hr1]
      · rw [List.append_assoc, List.getElem?_append_right (by omega)]
        simp [hr1]

theorem processItems_error_mem (js : Builtins) (env : Env) (names : List String)
    (ids : List Nat) :
    ∀ (acc : List Outcome) (w w1 : World) (e : String),
      processItems js env names ids acc w = (.error e, w1) →
      ∃ n, ∃ id ∈ ids, env.dbFails n (Call.expenseGetById id) = true := by
  induction ids with
  | nil => intro acc w w1 e h; simp [processItems] at h
  | cons id rest ih =>
    intro acc w w1 e h
    unfold processItems at h
    split at h
    · next e0 w0 he =>
      exact ⟨w.log.length, id, List.mem_cons_self _ _,
        processItem_error js env names id w w0 e0 he⟩
    · obtain ⟨n, later, hmem, hn⟩ := ih _ _ _ _ h
      exact ⟨n, later, List.mem_cons_of_mem _ hmem, hn⟩

theorem categorizeBatch_item_response (js : Builtins) (env : Env) (w w0 w1 w2 : World)
    (cats : List Category) (pre post : List Nat) (id : Nat) (r1 : List Outcome) (o : Outcome)
    (hall : Category.getAll env w = (.ok cats, w0))
    (hpre : processItems js env (cats.map (fun cat => cat.name)) pre [] w0 = (.ok r1, w1))
    (hitem : processItem js env (cats.map (fun cat => cat.name)) id w1 = (.ok o, w2)) :
    ((categorizeBatch js env (.array (pre ++ id :: post)) w).1 = failedResponse ∧
        ∃ n, ∃ later ∈ post, env.dbFails n (Call.expenseGetById later) = true) ∨
      ∃ results, (categorizeBatch js env (.array (pre ++ id :: post)) w).1 =
          resultsResponse results ∧
        results.length = (pre ++ id :: post).length ∧ results[pre.length]? = some o := by
  obtain ⟨hstep, hres⟩ := categorizeBatch_item js env w w0 w1 w2 cats pre post id r1 o hall
    hpre hitem
  have hbatch := categorizeBatch_array js env (pre ++ id :: post) w cats w0 (by simp) hall
  rw [hstep] at hbatch
  cases hpost : processItems js env (cats.map (fun cat => cat.name)) post (r1 ++ [o]) w2 with
  | mk r w3 =>
    rw [hpost] at hbatch
    cases r with
    | error e =>
      left
      refine ⟨by rw [hbatch], ?_⟩
      exact processItems_error_mem js env _ post _ _ _ _ hpost
    | ok results =>
      right
      have hbody : (categorizeBatch js env (.array (pre ++ id :: post)) w).1.body =
          .results results := by rw [hbatch]; rfl
      exact ⟨results, by rw [hbatch], hres results hbody⟩

/-! ## Claims on `categorizeBatch` -/

/-- C5: when `categorizeBatch` responds with a results array, the array has
as many entries as the input array of ids and the id of the k-th outcome is
the k-th input id, for every position k (duplicates included). -/
theorem categorizeBatch_one_outcome_per_id (js : Builtins) (env : Env) (ids : List Nat)
    (w : World) (results : List Outcome)
    (h : (categorizeBatch js env (.array ids) w).1.body = .results results) :
    results.length = ids.length ∧
      ∀ k : Nat, (results[k]?).map Outcome.id = (ids[k]? : Option Nat) := by
  have hmap : results.map Outcome.id = ids := by
    unfold categorizeBatch at h
    split at h
    · cases h
    · split at h
      · cases h
      · simp only [] at h
        split at h
        · cases h
        · next res w2 hres =>
          obtain ⟨tail, ht, hids⟩ := processItems_ok js env _ _ _ _ _ _ hres
          simp only [Body.results.injEq] at h
          subst h
          simpa [ht] using hids
  refine ⟨?_, ?_⟩
  · rw [← hmap, List.length_map]
  · intro k
    rw [← List.getElem?_map, hmap]

/-- Witness for C5: the batch 2, 7, 2 on a world holding expense 2 only. -/
theorem categorizeBatch_one_outcome_per_id_witness :
    [successOutcome 2 "None" "food", errorOutcome 7 "Expense not found",
        successOutcome 2 "food" "food"].length = [2, 7, 2].length ∧
      ∀ k : Nat, ([successOutcome 2 "None" "food", errorOutcome 7 "Expense not found",
        successOutcome 2 "food" "food"][k]?).map Outcome.id = ([2, 7, 2][k]? : Option Nat) :=
  categorizeBatch_one_outcome_per_id asciiBuiltins quietEnv [2, 7, 2] smallWorld
    [successOutcome 2 "None" "food", errorOutcome 7 "Expense not found",
      successOutcome 2 "food" "food"] (by decide)

/-- Counterexample for C6: the read of the second item's expense rejects and
the whole call answers 500 without a results array. -/
theorem categorizeBatch_read_failure_is_500 :
    (categorizeBatch asciiBuiltins (readFailEnv 7) (.array [2, 7]) smallWorld).1 =
      { status := 500, body := .error "Failed to categorize expenses" } := by
  decide

/-- C6 (amended): for a non-empty array of ids `categorizeBatch` responds
either with a results array or with status 500 'Failed to categorize
expenses', and the latter only when a storage read rejects: failures of the
provider, of `Expense.update` and of `Category.incrementUsage` never make the
call fail.  A rejected `Category.getAll`, and a rejected `Expense.getById` for
the item after any processed prefix, make the whole call answer 500. -/
theorem categorizeBatch_fails_only_on_read (js : Builtins) (env : Env) (w : World) :
    (∀ ids, ids ≠ [] →
      (∃ results, (categorizeBatch js env (.array ids) w).1 = resultsResponse results) ∨
      ((categorizeBatch js env (.array ids) w).1 = failedResponse ∧
        ∃ n c, Call.isRead c = true ∧ env.dbFails n c = true)) ∧
    (∀ ids, ids ≠ [] → env.dbFails w.log.length Call.categoryGetAll = true →
      (categorizeBatch js env (.array ids) w).1 = failedResponse) ∧
    (∀ pre id post cats w0 r1 w1, Category.getAll env w = (.ok cats, w0) →
      processItems js env (cats.map (fun cat => cat.name)) pre [] w0 = (.ok r1, w1) →
      env.dbFails w1.log.length (Call.expenseGetById id) = true →
      (categorizeBatch js env (.array (pre ++ id :: post)) w).1 = failedResponse) := by
  refine ⟨?_, ?_, ?_⟩
  · intro ids hne
    rcases getAll_cases env w with ⟨hf, -⟩ | ⟨-, hall⟩
    · right
      exact ⟨categorizeBatch_getAll_fail js env ids w hne hf, _, Call.categoryGetAll, rfl, hf⟩
    · rw [categorizeBatch_array js env ids w _ _ hne hall]
      cases hres : processItems js env
          ((orderByFrequencyDesc w.categories).map (fun cat => cat.name)) ids []
          (issue Call.categoryGetAll w) with
      | mk r w2 =>
        cases r with
        | error e =>
          right
          obtain ⟨n, id, hn⟩ := processItems_error js env _ _ _ _ _ _ hres
          exact ⟨rfl, n, Call.expenseGetById id, rfl, hn⟩
        | ok results => left; exact ⟨results, rfl⟩
  · intro ids hne hf
    exact categorizeBatch_getAll_fail js env ids w hne hf
  · intro pre id post cats w0 r1 w1 hall hpre hfail
    rw [categorizeBatch_array js env _ w _ _ (by simp) hall, processItems_append, hpre]
    simp only [processItems, processItem_read_fail js env _ id w1 hfail]

/-- Witness for C6: a batch in which every write rejects and the provider
throws still yields a results array; a batch whose second read rejects
answers 500. -/
theorem categorizeBatch_fails_only_on_read_witness :
    ((∃ results, (categorizeBatch asciiBuiltins writeFailEnv (.array [2]) smallWorld).1 =
          resultsResponse results) ∨
        ((categorizeBatch asciiBuiltins writeFailEnv (.array [2]) smallWorld).1
            = failedResponse ∧
          ∃ n c, Call.isRead c = true ∧ writeFailEnv.dbFails n c = true)) ∧
      (categorizeBatch asciiBuiltins (readFailEnv 9) (.array ([2] ++ 9 :: [2])) smallWorld).1 =
        failedResponse :=
  ⟨(categorizeBatch_fails_only_on_read asciiBuiltins writeFailEnv smallWorld).1 [2]
      (by decide),
    (categorizeBatch_fails_only_on_read asciiBuiltins (readFailEnv 9) smallWorld).2.2
      [2] 9 [2] (orderByFrequencyDesc smallWorld.categories) (issue Call.categoryGetAll smallWorld)
      [successOutcome 2 "None" "food"]
      (processItems asciiBuiltins (readFailEnv 9) ["food", "transportation"] [2] []
        (issue Call.categoryGetAll smallWorld)).2
      rfl rfl (by decide)⟩

/-- C8: if `expenseIds` is missing, is not an array, or is an empty array,
`categorizeBatch` responds with status 400 and leaves the world as it found
it: the tables are untouched and the log of external calls gains no entry (no
`Category.getAll`, `Expense.getById`, `Expense.update`,
`Category.incrementUsage` or provider call). -/
theorem categorizeBatch_invalid_request (js : Builtins) (env : Env) (expenseIds : IdsValue)
    (w : World)
    (h : expenseIds = .undefined ∨ (∃ t, expenseIds = .nonArray t) ∨ expenseIds = .array []) :
    categorizeBatch js env expenseIds w =
      ({ status := 400, body := .error "Please provide valid expense IDs" }, w) := by
  rcases h with h | ⟨t, h⟩ | h <;> subst h
  · simp [categorizeBatch, invalidIds, IdsValue.truthy]
  · simp [categorizeBatch, invalidIds, IdsValue.isArray]
  · simp [categorizeBatch, invalidIds, IdsValue.ids]

/-- Witness for C8: a missing property, a string, and an empty array. -/
theorem categorizeBatch_invalid_request_witness :
    (categorizeBatch asciiBuiltins quietEnv .undefined smallWorld =
        ({ status := 400, body := .error "Please provide valid expense IDs" }, smallWorld) ∧
      categorizeBatch asciiBuiltins quietEnv (.nonArray true) smallWorld =
        ({ status := 400, body := .error "Please provide valid expense IDs" }, smallWorld)) ∧
      categorizeBatch asciiBuiltins quietEnv (.array []) smallWorld =
        ({ status := 400, body := .error "Please provide valid expense IDs" }, smallWorld) :=
  ⟨⟨categorizeBatch_invalid_request asciiBuiltins quietEnv .undefined smallWorld (Or.inl rfl),
    categorizeBatch_invalid_request asciiBuiltins quietEnv (.nonArray true) smallWorld
      (Or.inr (Or.inl ⟨true, rfl⟩))⟩,
    categorizeBatch_invalid_request asciiBuiltins quietEnv (.array []) smallWorld
      (Or.inr (Or.inr rfl))⟩

/-- Counterexample for C7: with an empty category list the found expense gets
a success outcome with the category 'Other', its row is updated and the
category 'Other' is created with frequency 1. -/
theorem categorizeBatch_empty_categories_succeeds :
    (categorizeBatch asciiBuiltins quietEnv (.array [2]) noCategoriesWorld).1 =
        { status := 200, body := .results [successOutcome 2 "None" "Other"] } ∧
      (categorizeBatch asciiBuiltins quietEnv (.array [2]) noCategoriesWorld).2.expenses =
        [mkExpense 2 "Lunch and gas" (some "Other")] ∧
      (categorizeBatch asciiBuiltins quietEnv (.array [2]) noCategoriesWorld).2.categories =
        [{ name := "Other", frequency := 1 }] := by
  decide

/-- C7 (amended): when the known category list is empty, resolution yields
the literal 'Other' for every provider behaviour: for every found expense in
the batch, provided the storage writes succeed, `categorizeBatch` updates the
expense's category to 'Other', increments the usage of 'Other', records the
outcome with status 'success' and newCategory 'Other' at the item's position,
and goes on with the remaining ids. -/
theorem categorizeBatch_empty_categories (js : Builtins) (env : Env) (w w0 w1 : World)
    (pre post : List Nat) (id : Nat) (r1 : List Outcome) (expense : Expense)
    (hall : Category.getAll env w = (.ok [], w0))
    (hpre : processItems js env [] pre [] w0 = (.ok r1, w1))
    (hread : env.dbFails w1.log.length (Call.expenseGetById id) = false)
    (hfound : w1.expenses.find? (fun e => e.id == id) = some expense)
    (hwrites : ∀ n c, Call.isWrite c = true → env.dbFails n c = false) :
    ∃ w2, processItem js env [] id w1 =
          (.ok (successOutcome id (previousCategoryOf expense) "Other"), w2) ∧
      w2.expenses = updateRows id expense.description expense.amount (some "Other")
        expense.expense_date w1.expenses ∧
      w2.categories = upsertCategory "Other" w1.categories ∧
      processItems js env [] (pre ++ id :: post) [] w0 =
        processItems js env [] post
          (r1 ++ [successOutcome id (previousCategoryOf expense) "Other"]) w2 ∧
      ∀ results, (categorizeBatch js env (.array (pre ++ id :: post)) w).1.body
          = .results results →
        results[pre.length]? = some (successOutcome id (previousCategoryOf expense) "Other") := by
  have hitem := processItem_found js env [] id expense w1 hread hfound
  obtain ⟨ho, he, hc⟩ := categorizeFound_success js env [] id expense
    (issue (Call.expenseGetById id) w1) (hwrites _ _ rfl) (hwrites _ _ rfl)
  rw [predictCategory_nil] at ho he hc
  rw [ho] at hitem
  obtain ⟨hstep, hres⟩ := categorizeBatch_item js env w w0 w1 _ [] pre post id r1 _ hall
    (by simpa using hpre) (by simpa using hitem)
  refine ⟨_, hitem, he, hc, by simpa using hstep, ?_⟩
  intro results h
  exact (hres results h).2

/-- Witness for C7: the batch with the single id 2 on a world without
categories. -/
theorem categorizeBatch_empty_categories_witness :
    ∃ w2, processItem asciiBuiltins quietEnv [] 2 (issue Call.categoryGetAll noCategoriesWorld) =
          (.ok (successOutcome 2 (previousCategoryOf (mkExpense 2 "Lunch and gas" none))
            "Other"), w2) ∧
      w2.expenses = updateRows 2 "Lunch and gas" "12.50" (some "Other") "2024-01-15"
        (issue Call.categoryGetAll noCategoriesWorld).expenses ∧
      w2.categories = upsertCategory "Other"
        (issue Call.categoryGetAll noCategoriesWorld).categories ∧
      processItems asciiBuiltins quietEnv [] ([] ++ 2 :: []) []
          (issue Call.categoryGetAll noCategoriesWorld) =
        processItems asciiBuiltins quietEnv [] []
          ([] ++ [successOutcome 2 (previousCategoryOf (mkExpense 2 "Lunch and gas" none))
            "Other"]) w2 ∧
      ∀ results, (categorizeBatch asciiBuiltins quietEnv (.array ([] ++ 2 :: []))
          noCategoriesWorld).1.body = .results results →
        results[([] : List Nat).length]? =
          some (successOutcome 2 (previousCategoryOf (mkExpense 2 "Lunch and gas" none))
            "Other") :=
  categorizeBatch_empty_categories asciiBuiltins quietEnv noCategoriesWorld
    (issue Call.categoryGetAll noCategoriesWorld) (issue Call.categoryGetAll noCategoriesWorld)
    [] [] 2 [] (mkExpense 2 "Lunch and gas" none) rfl rfl rfl rfl (fun _ _ _ => rfl)

/-- Counterexample for C9: the batch 1, 7, 2 where expense 1 does not exist
and the read of expense 7 rejects.  The call answers 500 without a results
array, so there is no outcome for item 1, and item 2 is never read. -/
theorem categorizeBatch_not_found_then_rejected_read :
    smallWorld.expenses.find? (fun e => e.id == 1) = none ∧
      (categorizeBatch asciiBuiltins (readFailEnv 7) (.array [1, 7, 2]) smallWorld).1 =
        { status := 500, body := .error "Failed to categorize expenses" } ∧
      (categorizeBatch asciiBuiltins (readFailEnv 7) (.array [1, 7, 2]) smallWorld).2.log =
        [Call.categoryGetAll, Call.expenseGetById 1, Call.expenseGetById 7] := by
  decide

/-- C9 (amended): in every batch, when the id at position k resolves to no
expense (`Expense.getById` returns no row), the loop body yields exactly the
outcome `{ id, status: 'error', message: 'Expense not found' }` and issues no
external call for the item besides that read (no `Expense.update`,
`Category.incrementUsage` or provider call; the tables are unchanged), and the
loop goes on with the ids after k.  The call then answers either with a
results array that has one entry per id and that outcome at position k, or
with status 500 and no results array, the latter only when the read of a
later id rejects. -/
theorem categorizeBatch_expense_not_found (js : Builtins) (env : Env) (w w0 w1 : World)
    (cats : List Category) (pre post : List Nat) (id : Nat) (r1 : List Outcome)
    (hall : Category.getAll env w = (.ok cats, w0))
    (hpre : processItems js env (cats.map (fun cat => cat.name)) pre [] w0 = (.ok r1, w1))
    (hread : env.dbFails w1.log.length (Call.expenseGetById id) = false)
    (hmiss : w1.expenses.find? (fun e => e.id == id) = none) :
    processItem js env (cats.map (fun cat => cat.name)) id w1 =
        (.ok { id := id, status := "error", message := some "Expense not found" },
          { w1 with log := w1.log ++ [Call.expenseGetById id] }) ∧
      processItems js env (cats.map (fun cat => cat.name)) (pre ++ id :: post) [] w0 =
        processItems js env (cats.map (fun cat => cat.name)) post
          (r1 ++ [{ id := id, status := "error", message := some "Expense not found" }])
          { w1 with log := w1.log ++ [Call.expenseGetById id] } ∧
      (((categorizeBatch js env (.array (pre ++ id :: post)) w).1 = failedResponse ∧
          ∃ n, ∃ later ∈ post, env.dbFails n (Call.expenseGetById later) = true) ∨
        ∃ results, (categorizeBatch js env (.array (pre ++ id :: post)) w).1 =
            resultsResponse results ∧
          results.length = (pre ++ id :: post).length ∧
          results[pre.length]? =
            some { id := id, status := "error", message := some "Expense not found" }) := by
  have hitem := processItem_not_found js env (cats.map (fun cat => cat.name)) id w1 hread hmiss
  obtain ⟨hstep, -⟩ := categorizeBatch_item js env w w0 w1 _ cats pre post id r1 _ hall
    hpre hitem
  exact ⟨hitem, hstep,
    categorizeBatch_item_response js env w w0 w1 _ cats pre post id r1 _ hall hpre hitem⟩

/-- Witness for C9: the batch 1, 2 where expense 1 does not exist and expense
2 does: an error outcome for 1 followed by a success outcome for 2. -/
theorem categorizeBatch_expense_not_found_witness :
    (processItem asciiBuiltins quietEnv ["food", "transportation"] 1
          (issue Call.categoryGetAll smallWorld) =
        (.ok { id := 1, status := "error", message := some "Expense not found" },
          { issue Call.categoryGetAll smallWorld with
            log := (issue Call.categoryGetAll smallWorld).log ++ [Call.expenseGetById 1] }) ∧
      (categorizeBatch asciiBuiltins quietEnv (.array [1, 2]) smallWorld).1.body =
        .results [{ id := 1, status := "error", message := some "Expense not found" },
          { id := 2, status := "success", previousCategory := some "None",
            newCategory := some "food" }]) :=
  ⟨(categorizeBatch_expense_not_found asciiBuiltins quietEnv smallWorld
      (issue Call.categoryGetAll smallWorld) (issue Call.categoryGetAll smallWorld)
      (orderByFrequencyDesc smallWorld.categories) [] [2] 1 [] rfl rfl rfl rfl).1,
    by decide⟩

/-- Counterexample for C10: the batch 2, 7 where every write rejects and the
read of expense 7 rejects too.  `Expense.update` throws while item 2 is
processed, yet the call answers 500 without a results array: neither item has
an outcome. -/
theorem categorizeBatch_write_failure_then_rejected_read :
    smallWorld.expenses.find? (fun e => e.id == 2) = some (mkExpense 2 "Lunch and gas" none) ∧
      (categorizeBatch asciiBuiltins (writeAndReadFailEnv 7) (.array [2, 7]) smallWorld).1 =
        { status := 500, body := .error "Failed to categorize expenses" } ∧
      (categorizeBatch asciiBuiltins (writeAndReadFailEnv 7) (.array [2, 7]) smallWorld).2.log =
        [Call.categoryGetAll, Call.expenseGetById 2,
          Call.expenseUpdate 2 "Lunch and gas" "12.50" (some "food") "2024-01-15",
          Call.expenseGetById 7] := by
  decide

/-- C10 (amended): in every batch, if `Expense.update` or
`Category.incrementUsage` throws while item k (a found expense) is processed,
the loop body yields the outcome
`{ id, status: 'error', message: 'AI service error' }` and the loop goes on
with the ids after k: the failure on item k does not prevent the processing
of item k+1.  The call then answers either with a results array that has one
entry per id and that outcome at position k, or with status 500 and no
results array, the latter only when the read of a later id rejects. -/
theorem categorizeBatch_write_failure (js : Builtins) (env : Env) (w w0 w1 : World)
    (cats : List Category) (pre post : List Nat) (id : Nat) (r1 : List Outcome)
    (expense : Expense)
    (hall : Category.getAll env w = (.ok cats, w0))
    (hpre : processItems js env (cats.map (fun cat => cat.name)) pre [] w0 = (.ok r1, w1))
    (hread : env.dbFails w1.log.length (Call.expenseGetById id) = false)
    (hfound : w1.expenses.find? (fun e => e.id == id) = some expense)
    (hfail :
      env.dbFails
          (predictCategory js env expense.description (cats.map (fun cat => cat.name))
            (issue (Call.expenseGetById id) w1)).2.log.length
          (Call.expenseUpdate id expense.description expense.amount
            (some (predictCategory js env expense.description (cats.map (fun cat => cat.name))
              (issue (Call.expenseGetById id) w1)).1) expense.expense_date) = true ∨
        env.dbFails
          ((predictCategory js env expense.description (cats.map (fun cat => cat.name))
            (issue (Call.expenseGetById id) w1)).2.log.length + 1)
          (Call.categoryIncrementUsage
            (predictCategory js env expense.description (cats.map (fun cat => cat.name))
              (issue (Call.expenseGetById id) w1)).1) = true) :
    ∃ w2, processItem js env (cats.map (fun cat => cat.name)) id w1 =
          (.ok { id := id, status := "error", message := some "AI service error" }, w2) ∧
      processItems js env (cats.map (fun cat => cat.name)) (pre ++ id :: post) [] w0 =
        processItems js env (cats.map (fun cat => cat.name)) post
          (r1 ++ [{ id := id, status := "error", message := some "AI service error" }]) w2 ∧
      (((categorizeBatch js env (.array (pre ++ id :: post)) w).1 = failedResponse ∧
          ∃ n, ∃ later ∈ post, env.dbFails n (Call.expenseGetById later) = true) ∨
        ∃ results, (categorizeBatch js env (.array (pre ++ id :: post)) w).1 =
            resultsResponse results ∧
          results.length = (pre ++ id :: post).length ∧
          results[pre.length]? =
            some { id := id, status := "error", message := some "AI service error" }) := by
  have hitem := processItem_found js env (cats.map (fun cat => cat.name)) id expense w1
    hread hfound
  have ho : (categorizeFound js env (cats.map (fun cat => cat.name)) id expense
      (issue (Call.expenseGetById id) w1)).1 = errorOutcome id "AI service error" := by
    by_cases hupd : env.dbFails
        (predictCategory js env expense.description (cats.map (fun cat => cat.name))
          (issue (Call.expenseGetById id) w1)).2.log.length
        (updateCall id expense
          (predictCategory js env expense.description (cats.map (fun cat => cat.name))
            (issue (Call.expenseGetById id) w1)).1) = true
    · rw [categorizeFound_update_fail js env _ id expense _ hupd]
    · have hupd' : env.dbFails
          (predictCategory js env expense.description (cats.map (fun cat => cat.name))
            (issue (Call.expenseGetById id) w1)).2.log.length
          (updateCall id expense
            (predictCategory js env expense.description (cats.map (fun cat => cat.name))
              (issue (Call.expenseGetById id) w1)).1) = false := by
        simpa using hupd
      rcases hfail with h | h
      · exact absurd h hupd
      · exact categorizeFound_increment_fail js env _ id expense _ hupd' h
  rw [ho] at hitem
  obtain ⟨hstep, -⟩ := categorizeBatch_item js env w w0 w1 _ cats pre post id r1 _ hall
    hpre hitem
  exact ⟨_, hitem, hstep,
    categorizeBatch_item_response js env w w0 w1 _ cats pre post id r1 _ hall hpre hitem⟩

/-- Witness for C10: every write rejects; the batch 2, 2 yields an 'AI service
error' outcome for the first item and the second item is processed too. -/
theorem categorizeBatch_write_failure_witness :
    (∃ w2, processItem asciiBuiltins writeFailEnv ["food", "transportation"] 2
          (issue Call.categoryGetAll smallWorld) =
        (.ok { id := 2, status := "error", message := some "AI service error" }, w2)) ∧
      (categorizeBatch asciiBuiltins writeFailEnv (.array [2, 2]) smallWorld).1.body =
        .results [{ id := 2, status := "error", message := some "AI service error" },
          { id := 2, status := "error", message := some "AI service error" }] :=
  ⟨(categorizeBatch_write_failure asciiBuiltins writeFailEnv smallWorld
      (issue Call.categoryGetAll smallWorld) (issue Call.categoryGetAll smallWorld)
      (orderByFrequencyDesc smallWorld.categories) [] [2] 2 []
      (mkExpense 2 "Lunch and gas" none) rfl rfl rfl rfl (Or.inl rfl)).imp (fun _ h => h.1),
    by decide⟩

/-! ## Further claims on the classifiers -/

/-- C11: for every found expense and every provider behaviour (any reply,
any thrown error, no credential), provided the storage writes succeed, the
item's outcome has status 'success' and is the entry of the results array at
the item's position: a provider failure never surfaces as an error outcome. -/
theorem categorizeBatch_provider_never_errors (js : Builtins) (env : Env) (w w0 w1 : World)
    (cats : List Category) (pre post : List Nat) (id : Nat) (r1 : List Outcome)
    (expense : Expense)
    (hall : Category.getAll env w = (.ok cats, w0))
    (hpre : processItems js env (cats.map (fun cat => cat.name)) pre [] w0 = (.ok r1, w1))
    (hread : env.dbFails w1.log.length (Call.expenseGetById id) = false)
    (hfound : w1.expenses.find? (fun e => e.id == id) = some expense)
    (hwrites : ∀ n c, Call.isWrite c = true → env.dbFails n c = false) :
    ∃ o w2, processItem js env (cats.map (fun cat => cat.name)) id w1 = (.ok o, w2) ∧
      o.status = "success" ∧
      ∀ results, (categorizeBatch js env (.array (pre ++ id :: post)) w).1.body
          = .results results → results[pre.length]? = some o := by
  have hitem := processItem_found js env (cats.map (fun cat => cat.name)) id expense w1
    hread hfound
  obtain ⟨ho, -, -⟩ := categorizeFound_success js env (cats.map (fun cat => cat.name)) id
    expense (issue (Call.expenseGetById id) w1) (hwrites _ _ rfl) (hwrites _ _ rfl)
  obtain ⟨-, hres⟩ := categorizeBatch_item js env w w0 w1 _ cats pre post id r1 _ hall
    hpre hitem
  refine ⟨_, _, hitem, ?_, fun results h => (hres results h).2⟩
  rw [ho]
  rfl

/-- Witness for C11: a provider that throws and a provider that answers the
out-of-vocabulary label "Groceries". -/
theorem categorizeBatch_provider_never_errors_witness :
    (∃ o w2, processItem asciiBuiltins throwEnv ["food", "transportation"] 2
          (issue Call.categoryGetAll smallWorld) = (.ok o, w2) ∧
        o.status = "success" ∧
        ∀ results, (categorizeBatch asciiBuiltins throwEnv (.array ([] ++ 2 :: []))
          smallWorld).1.body = .results results →
          results[([] : List Nat).length]? = some o) ∧
      (∃ o w2, processItem asciiBuiltins (replyEnv "Groceries") ["food", "transportation"] 2
          (issue Call.categoryGetAll smallWorld) = (.ok o, w2) ∧
        o.status = "success" ∧
        ∀ results, (categorizeBatch asciiBuiltins (replyEnv "Groceries")
          (.array ([] ++ 2 :: [])) smallWorld).1.body = .results results →
          results[([] : List Nat).length]? = some o) :=
  ⟨categorizeBatch_provider_never_errors asciiBuiltins throwEnv smallWorld
      (issue Call.categoryGetAll smallWorld) (issue Call.categoryGetAll smallWorld)
      (orderByFrequencyDesc smallWorld.categories) [] [] 2 []
      (mkExpense 2 "Lunch and gas" none) rfl rfl rfl rfl (fun _ _ _ => rfl),
    categorizeBatch_provider_never_errors asciiBuiltins (replyEnv "Groceries") smallWorld
      (issue Call.categoryGetAll smallWorld) (issue Call.categoryGetAll smallWorld)
      (orderByFrequencyDesc smallWorld.categories) [] [] 2 []
      (mkExpense 2 "Lunch and gas" none) rfl rfl rfl rfl (fun _ _ _ => rfl)⟩

/-- C12: for every description whose lower-cased text contains a keyword of
the food entry and a keyword of the transportation entry of the keyword
table, and every category list that contains both "food" and
"transportation", `simpleKeywordCategorization` returns "food", although the
transportation entry qualifies as well. -/
theorem simpleKeywordCategorization_food_before_transportation (js : Builtins)
    (description : String) (categories : List String)
    (foodKeywords transportationKeywords : List String) (foodKeyword transportKeyword : String)
    (hfoodEntry : ("food", foodKeywords) ∈ keywordMap)
    (htransportEntry : ("transportation", transportationKeywords) ∈ keywordMap)
    (hfoodKeyword : foodKeyword ∈ foodKeywords)
    (htransportKeyword : transportKeyword ∈ transportationKeywords)
    (hfoodOccurs : strIncludes (js.toLowerCase description) foodKeyword = true)
    (htransportOccurs : strIncludes (js.toLowerCase description) transportKeyword = true)
    (hfood : "food" ∈ categories) (htransport : "transportation" ∈ categories) :
    simpleKeywordCategorization js description categories = "food" ∧
      qualifies (js.toLowerCase description) categories
        ("transportation", transportationKeywords) = true := by
  have htq : qualifies (js.toLowerCase description) categories
      ("transportation", transportationKeywords) = true := by
    have _hentry := htransportEntry
    simp only [qualifies, Bool.and_eq_true, List.any_eq_true]
    exact ⟨(contains_eq_true_iff_mem _ _).2 htransport, transportKeyword, htransportKeyword,
      htransportOccurs⟩
  refine ⟨?_, htq⟩
  have hkws : foodKeywords = ["grocery", "restaurant", "meal", "lunch", "dinner",
      "breakfast", "coffee", "pizza", "burger"] := by
    simpa [keywordMap] using hfoodEntry
  have hq : qualifies (js.toLowerCase description) categories ("food", foodKeywords) = true := by
    simp only [qualifies, Bool.and_eq_true, List.any_eq_true]
    exact ⟨(contains_eq_true_iff_mem _ _).2 hfood, foodKeyword, hfoodKeyword, hfoodOccurs⟩
  subst hkws
  unfold simpleKeywordCategorization keywordMap
  simp only [keywordLoop, hq, if_true]

/-- Witness for C12: the description "lunch and gas". -/
theorem simpleKeywordCategorization_food_before_transportation_witness :
    simpleKeywordCategorization asciiBuiltins "lunch and gas" ["transportation", "food"]
        = "food" ∧
      qualifies (asciiBuiltins.toLowerCase "lunch and gas") ["transportation", "food"]
        ("transportation", ["gas", "fuel", "bus", "train", "taxi", "uber", "lyft", "subway",
          "car", "vehicle", "toll", "parking"]) = true :=
  simpleKeywordCategorization_food_before_transportation asciiBuiltins "lunch and gas"
    ["transportation", "food"]
    ["grocery", "restaurant", "meal", "lunch", "dinner", "breakfast", "coffee", "pizza",
      "burger"]
    ["gas", "fuel", "bus", "train", "taxi", "uber", "lyft", "subway", "car", "vehicle",
      "toll", "parking"]
    "lunch" "gas" (by decide) (by decide) (by decide) (by decide) (by decide) (by decide)
    (by decide) (by decide)

/-- C13: when no entry of the keyword table qualifies (none is both in the
list and matched by one of its keywords in the lower-cased description) and
the list contains "Miscellaneous", at whatever position,
`simpleKeywordCategorization` returns "Miscellaneous". -/
theorem simpleKeywordCategorization_miscellaneous (js : Builtins) (description : String)
    (pre post : List String)
    (hnone : ∀ e ∈ keywordMap, ¬ (e.1 ∈ pre ++ "Miscellaneous" :: post ∧
      ∃ keyword ∈ e.2, strIncludes (js.toLowerCase description) keyword = true)) :
    simpleKeywordCategorization js description (pre ++ "Miscellaneous" :: post)
      = "Miscellaneous" := by
  have hq : ∀ e ∈ keywordMap,
      qualifies (js.toLowerCase description) (pre ++ "Miscellaneous" :: post) e = false := by
    intro e he
    by_contra hq
    apply hnone e he
    have hq' : qualifies (js.toLowerCase description) (pre ++ "Miscellaneous" :: post) e
        = true := by
      simpa using hq
    simp only [qualifies, Bool.and_eq_true, List.any_eq_true] at hq'
    exact ⟨(contains_eq_true_iff_mem _ _).1 hq'.1, hq'.2⟩
  have hloop := keywordLoop_append_of_not_qualifies (js.toLowerCase description)
    (pre ++ "Miscellaneous" :: post) keywordMap [] hq
  unfold simpleKeywordCategorization
  rw [List.append_nil] at hloop
  rw [hloop]
  simp [keywordLoop, defaultCategory]

/-- Witness for C13: "Team offsite" matches no keyword; "Miscellaneous" is
the last entry of the list. -/
theorem simpleKeywordCategorization_miscellaneous_witness :
    simpleKeywordCategorization asciiBuiltins "Team offsite"
      (["Food", "food"] ++ "Miscellaneous" :: []) = "Miscellaneous" :=
  simpleKeywordCategorization_miscellaneous asciiBuiltins "Team offsite" ["Food", "food"] []
    (by decide)

/-- Counterexample for C14: the list is non-empty, does not contain
"Miscellaneous", no keyword category qualifies, and its first entry is the
empty string: the result is 'Other', not the first entry. -/
theorem simpleKeywordCategorization_empty_first_entry :
    ["", "Travel"] ≠ [] ∧ "Miscellaneous" ∉ ["", "Travel"] ∧
      (∀ e ∈ keywordMap, qualifies (asciiBuiltins.toLowerCase "Team offsite") ["", "Travel"] e
        = false) ∧
      simpleKeywordCategorization asciiBuiltins "Team offsite" ["", "Travel"] = "Other" ∧
      ["", "Travel"].head? = some "" := by
  decide

/-- C14 (amended): for every non-empty category list that does not contain
"Miscellaneous" and for which no keyword category qualifies,
`simpleKeywordCategorization` returns the first entry of the list when that
entry is not the empty string, and 'Other' when it is. -/
theorem simpleKeywordCategorization_first_entry (js : Builtins) (description : String)
    (first : String) (rest : List String)
    (hmisc : "Miscellaneous" ∉ first :: rest)
    (hnone : ∀ e ∈ keywordMap, ¬ (e.1 ∈ first :: rest ∧
      ∃ keyword ∈ e.2, strIncludes (js.toLowerCase description) keyword = true)) :
    simpleKeywordCategorization js description (first :: rest) =
      if first = "" then "Other" else first := by
  have hq : ∀ e ∈ keywordMap,
      qualifies (js.toLowerCase description) (first :: rest) e = false := by
    intro e he
    by_contra hq
    apply hnone e he
    have hq' : qualifies (js.toLowerCase description) (first :: rest) e = true := by
      simpa using hq
    simp only [qualifies, Bool.and_eq_true, List.any_eq_true] at hq'
    exact ⟨(contains_eq_true_iff_mem _ _).1 hq'.1, hq'.2⟩
  have hloop := keywordLoop_append_of_not_qualifies (js.toLowerCase description)
    (first :: rest) keywordMap [] hq
  have hm : (first :: rest).contains "Miscellaneous" = false := by
    have := (contains_eq_true_iff_mem (first :: rest) "Miscellaneous").not.2 hmisc
    simpa using this
  unfold simpleKeywordCategorization
  rw [List.append_nil] at hloop
  rw [hloop]
  simp only [keywordLoop, defaultCategory, hm, Bool.false_eq_true, if_false, List.head?_cons]
  by_cases hf : first = ""
  · subst hf; simp [truthy]
  · simp [truthy, hf]

/-- Witness for C14: the list Travel, Food and a description without keyword. -/
theorem simpleKeywordCategorization_first_entry_witness :
    simpleKeywordCategorization asciiBuiltins "Team offsite" ("Travel" :: ["Food"]) =
      if "Travel" = "" then "Other" else "Travel" :=
  simpleKeywordCategorization_first_entry asciiBuiltins "Team offsite" "Travel" ["Food"]
    (by decide) (by decide)

/-- C15: when no provider credential is configured (`OPENAI_API_KEY` unset or
empty), `predictCategory` issues no external call at all, for every
description and category list: the world, and with it the log of external
calls, is returned as it was, so no completion request is made. -/
theorem predictCategory_no_call_without_key (js : Builtins) (env : Env)
    (description : String) (categories : List String) (w : World)
    (hkey : env.OPENAI_API_KEY = none ∨ env.OPENAI_API_KEY = some "") :
    (predictCategory js env description categories w).2 = w ∧
      ∀ model prompt, Call.chatCompletion model prompt ∈
        (predictCategory js env description categories w).2.log →
        Call.chatCompletion model prompt ∈ w.log := by
  have h : (predictCategory js env description categories w).2 = w := by
    unfold predictCategory
    rcases hkey with h | h <;> simp [h, truthyOpt, truthy]
  refine ⟨h, ?_⟩
  intro model prompt hm
  rw [h] at hm
  exact hm

/-- Witness for C15: the variable unset, and the variable set to the empty
string with a provider that would answer. -/
theorem predictCategory_no_call_without_key_witness :
    ((predictCategory asciiBuiltins quietEnv "Lunch" ["food"] emptyWorld).2 = emptyWorld ∧
      ∀ model prompt, Call.chatCompletion model prompt ∈
        (predictCategory asciiBuiltins quietEnv "Lunch" ["food"] emptyWorld).2.log →
        Call.chatCompletion model prompt ∈ emptyWorld.log) ∧
      ((predictCategory asciiBuiltins emptyKeyEnv "Lunch" ["food"] emptyWorld).2 = emptyWorld ∧
      ∀ model prompt, Call.chatCompletion model prompt ∈
        (predictCategory asciiBuiltins emptyKeyEnv "Lunch" ["food"] emptyWorld).2.log →
        Call.chatCompletion model prompt ∈ emptyWorld.log) :=
  ⟨predictCategory_no_call_without_key asciiBuiltins quietEnv "Lunch" ["food"] emptyWorld
      (Or.inl rfl),
    predictCategory_no_call_without_key asciiBuiltins emptyKeyEnv "Lunch" ["food"] emptyWorld
      (Or.inr rfl)⟩

/-! ## Lemmas on the tables during a batch -/

theorem categorizeFound_cases (js : Builtins) (env : Env) (names : List String) (id : Nat)
    (expense : Expense) (w : World) :
    ((categorizeFound js env names id expense w).1 = errorOutcome id "AI service error" ∧
        ((categorizeFound js env names id expense w).2.expenses = w.expenses ∨
          (categorizeFound js env names id expense w).2.expenses =
            updateRows id expense.description expense.amount
              (some (predictCategory js env expense.description names w).1)
              expense.expense_date w.expenses) ∧
        (categorizeFound js env names id expense w).2.categories = w.categories) ∨
      ((categorizeFound js env names id expense w).1 =
          successOutcome id (previousCategoryOf expense)
            (predictCategory js env expense.description names w).1 ∧
        (categorizeFound js env names id expense w).2.expenses =
          updateRows id expense.description expense.amount
            (some (predictCategory js env expense.description names w).1)
            expense.expense_date w.expenses ∧
        (categorizeFound js env names id expense w).2.categories =
          upsertCategory (predictCategory js env expense.description names w).1
            w.categories) := by
  obtain ⟨he, hc⟩ := predictCategory_tables js env expense.description names w
  cases hupd : env.dbFails (predictCategory js env expense.description names w).2.log.length
      (updateCall id expense (predictCategory js env expense.description names w).1) with
  | true =>
    left
    rw [categorizeFound_update_fail js env names id expense w hupd]
    exact ⟨rfl, Or.inl he, hc⟩
  | false =>
    cases hinc : env.dbFails
        ((predictCategory js env expense.description names w).2.log.length + 1)
        (Call.categoryIncrementUsage (predictCategory js env expense.description names w).1) with
    | true =>
      left
      refine ⟨categorizeFound_increment_fail js env names id expense w hupd hinc, Or.inr ?_, ?_⟩
      · unfold updateCall at hupd
        simp [categorizeFound, predictCategory_truthy, Expense.update, hupd,
          Category.incrementUsage, issue, hinc, he]
      · unfold updateCall at hupd
        simp [categorizeFound, predictCategory_truthy, Expense.update, hupd,
          Category.incrementUsage, issue, hinc, hc]
    | false =>
      right
      exact categorizeFound_success js env names id expense w hupd hinc

theorem processItem_cases (js : Builtins) (env : Env) (names : List String) (id : Nat)
    (w : World) :
    ((processItem js env names id w).2.expenses = w.expenses ∧
        (processItem js env names id w).2.categories = w.categories ∧
        ∀ o, (processItem js env names id w).1 = .ok o → o.status = "error") ∨
      ∃ expense, w.expenses.find? (fun e => e.id == id) = some expense ∧
        (processItem js env names id w).2.expenses =
          updateRows id expense.description expense.amount
            (some (predictCategory js env expense.description names
              (issue (Call.expenseGetById id) w)).1) expense.expense_date w.expenses ∧
        (((processItem js env names id w).1 = .ok (errorOutcome id "AI service error") ∧
            (processItem js env names id w).2.categories = w.categories) ∨
          ((processItem js env names id w).1 =
              .ok (successOutcome id (previousCategoryOf expense)
                (predictCategory js env expense.description names
                  (issue (Call.expenseGetById id) w)).1) ∧
            (processItem js env names id w).2.categories =
              upsertCategory (predictCategory js env expense.description names
                (issue (Call.expenseGetById id) w)).1 w.categories)) := by
  cases hread : env.dbFails w.log.length (Call.expenseGetById id) with
  | true =>
    left
    rw [processItem_read_fail js env names id w hread]
    exact ⟨rfl, rfl, fun o h => by cases h⟩
  | false =>
    cases hfind : w.expenses.find? (fun e => e.id == id) with
    | none =>
      left
      rw [processItem_not_found js env names id w hread hfind]
      refine ⟨rfl, rfl, fun o h => ?_⟩
      simp only [Except.ok.injEq] at h
      rw [← h]; rfl
    | some expense =>
      rw [processItem_found js env names id expense w hread hfind]
      rcases categorizeFound_cases js env names id expense (issue (Call.expenseGetById id) w)
        with ⟨ho, he | he, hc⟩ | ⟨ho, he, hc⟩
      · left
        refine ⟨he, hc, fun o h => ?_⟩
        simp only [Except.ok.injEq] at h
        rw [← h, ho]; rfl
      · right
        exact ⟨expense, rfl, he, Or.inl ⟨by rw [ho], hc⟩⟩
      · right
        exact ⟨expense, rfl, he, Or.inr ⟨by rw [ho], hc⟩⟩

theorem updateRows_otherColumns (id : Nat) (expense : Expense) (category : Option String)
    (rows : List Expense) (hkey : (rows.map Expense.id).Nodup)
    (hfound : rows.find? (fun e => e.id == id) = some expense) :
    (updateRows id expense.description expense.amount category expense.expense_date rows).map
      Expense.otherColumns = rows.map Expense.otherColumns := by
  have hmem : expense ∈ rows := List.mem_of_find?_eq_some hfound
  have hid : expense.id = id := by
    have := List.find?_some hfound
    simpa using this
  unfold updateRows
  rw [List.map_map]
  apply List.map_congr_left
  intro e he
  by_cases hei : e.id = id
  · have heq : e = expense := List.inj_on_of_nodup_map hkey he hmem (by rw [hei, hid])
    subst heq
    simp [hei, Expense.otherColumns]
  · simp [hei]

theorem updateRows_filter (keep : Nat → Bool) (id : Nat) (description amount : String)
    (category : Option String) (expenseDate : String) (rows : List Expense)
    (hid : keep id = false) :
    (updateRows id description amount category expenseDate rows).filter
        (fun e => keep e.id) = rows.filter (fun e => keep e.id) := by
  induction rows with
  | nil => rfl
  | cons e rest ih =>
    have ih' := ih
    simp only [updateRows] at ih'
    by_cases hei : e.id = id
    · simp only [updateRows, List.map_cons, List.filter_cons]
      rw [ih']
      simp [hei, hid]
    · simp only [updateRows, List.map_cons, List.filter_cons]
      rw [ih']
      simp [hei]

theorem otherColumns_ids (rows rows1 : List Expense)
    (h : rows1.map Expense.otherColumns = rows.map Expense.otherColumns) :
    rows1.map Expense.id = rows.map Expense.id := by
  have := congrArg (List.map Prod.fst) h
  simpa [List.map_map, Function.comp_def, Expense.otherColumns] using this

theorem processItem_otherColumns (js : Builtins) (env : Env) (names : List String) (id : Nat)
    (w : World) (hkey : (w.expenses.map Expense.id).Nodup) :
    (processItem js env names id w).2.expenses.map Expense.otherColumns =
      w.expenses.map Expense.otherColumns := by
  rcases processItem_cases js env names id w with ⟨he, -, -⟩ | ⟨expense, hfind, he, -⟩
  · rw [he]
  · rw [he]
    exact updateRows_otherColumns id expense _ w.expenses hkey hfind

theorem processItem_filter (js : Builtins) (env : Env) (names : List String) (id : Nat)
    (w : World) (keep : Nat → Bool) (hid : keep id = false) :
    (processItem js env names id w).2.expenses.filter (fun e => keep e.id) =
      w.expenses.filter (fun e => keep e.id) := by
  rcases processItem_cases js env names id w with ⟨he, -, -⟩ | ⟨expense, -, he, -⟩
  · rw [he]
  · rw [he]
    exact updateRows_filter keep id _ _ _ _ w.expenses hid

theorem processItems_otherColumns (js : Builtins) (env : Env) (names : List String)
    (ids : List Nat) :
    ∀ (acc : List Outcome) (w : World), (w.expenses.map Expense.id).Nodup →
      (processItems js env names ids acc w).2.expenses.map Expense.otherColumns =
        w.expenses.map Expense.otherColumns := by
  induction ids with
  | nil => intro acc w _; rfl
  | cons id rest ih =>
    intro acc w hkey
    have hitem := processItem_otherColumns js env names id w hkey
    unfold processItems
    split
    · next e w1 heq =>
      rw [heq] at hitem
      exact hitem
    · next o w1 heq =>
      rw [heq] at hitem
      have hkey1 : (w1.expenses.map Expense.id).Nodup := by
        rw [otherColumns_ids _ _ hitem]; exact hkey
      rw [ih _ w1 hkey1]
      exact hitem

theorem processItems_filter (js : Builtins) (env : Env) (names : List String)
    (keep : Nat → Bool) (ids : List Nat) :
    ∀ (acc : List Outcome) (w : World), (∀ i ∈ ids, keep i = false) →
      (processItems js env names ids acc w).2.expenses.filter (fun e => keep e.id) =
        w.expenses.filter (fun e => keep e.id) := by
  induction ids with
  | nil => intro acc w _; rfl
  | cons id rest ih =>
    intro acc w hids
    have hitem := processItem_filter js env names id w keep (hids id (List.mem_cons_self _ _))
    unfold processItems
    split
    · next e w1 heq =>
      rw [heq] at hitem
      exact hitem
    · next o w1 heq =>
      rw [heq] at hitem
      rw [ih _ w1 (fun i hi => hids i (List.mem_cons_of_mem _ hi))]
      exact hitem

theorem getAll_tables (env : Env) (w : World) :
    (Category.getAll env w).2.expenses = w.expenses ∧
      (Category.getAll env w).2.categories = w.categories := by
  rcases getAll_cases env w with ⟨-, h⟩ | ⟨-, h⟩ <;> rw [h] <;> exact ⟨rfl, rfl⟩

theorem categorizeBatch_world (js : Builtins) (env : Env) (expenseIds : IdsValue) (w : World) :
    (categorizeBatch js env expenseIds w).2 = w ∨
      (categorizeBatch js env expenseIds w).2 = (Category.getAll env w).2 ∨
      ∃ names, (categorizeBatch js env expenseIds w).2 =
        (processItems js env names expenseIds.ids [] (Category.getAll env w).2).2 := by
  unfold categorizeBatch
  split
  · exact Or.inl rfl
  · split
    · next e w1 heq => right; left; rw [heq]
    · next cats w1 heq =>
      right; right
      refine ⟨cats.map (fun cat => cat.name), ?_⟩
      simp only [heq]
      split <;> next hres => rw [hres]

theorem updateRows_category (id : Nat) (description amount : String)
    (category : Option String) (expenseDate : String) (rows : List Expense) :
    ∀ e ∈ updateRows id description amount category expenseDate rows,
      e.id = id → e.category = category := by
  intro e he hid
  simp only [updateRows, List.mem_map] at he
  obtain ⟨e0, -, rfl⟩ := he
  by_cases h0 : e0.id = id
  · simp [h0]
  · simp [h0] at hid

theorem previousCategoryOf_eq (expense : Expense) :
    previousCategoryOf expense =
      match expense.category with
      | some c => if c = "" then "None" else c
      | none => "None" := by
  unfold previousCategoryOf
  cases expense.category with
  | none => rfl
  | some c =>
    by_cases hc : c = ""
    · subst hc; rfl
    · simp [truthy, hc]

theorem find?_eq_of_filter_eq {α : Type} (p : α → Bool) (l l1 : List α)
    (h : l1.filter p = l.filter p) : l1.find? p = l.find? p := by
  rw [← List.filter_head?, ← List.filter_head?, h]

/-! ## Claims on the outcome and the tables after a batch -/

/-- Counterexample for C16: the batch 2, 2.  Before the batch expense 2 has no
category, yet the second outcome reports previousCategory "food", the
category the first item of the same batch wrote. -/
theorem categorizeBatch_duplicate_id_previous_category :
    (categorizeBatch asciiBuiltins quietEnv (.array [2, 2]) smallWorld).1.body =
        .results [successOutcome 2 "None" "food", successOutcome 2 "food" "food"] ∧
      (smallWorld.expenses.find? (fun e => e.id == 2)).map (fun e => e.category)
        = some none := by
  decide

/-- C16 (amended): for every item that `categorizeBatch` reports with status
'success', the expense was found, newCategory is the category the resolver
returned for its description, every row with the item's id carries that
category after the item, and previousCategory is the category the expense had
when the item was processed (its category before the batch when no earlier
item of the batch has the same id) if that is a non-empty string, and 'None'
if it is null or empty. -/
theorem categorizeBatch_success_outcome_fields (js : Builtins) (env : Env)
    (w w0 w1 w2 : World) (cats : List Category) (pre post : List Nat) (id : Nat)
    (r1 : List Outcome) (o : Outcome)
    (hall : Category.getAll env w = (.ok cats, w0))
    (hpre : processItems js env (cats.map (fun cat => cat.name)) pre [] w0 = (.ok r1, w1))
    (hitem : processItem js env (cats.map (fun cat => cat.name)) id w1 = (.ok o, w2))
    (hsuccess : o.status = "success") :
    ∃ expense resolved,
      w1.expenses.find? (fun e => e.id == id) = some expense ∧
      (id ∉ pre → w.expenses.find? (fun e => e.id == id) = some expense) ∧
      resolved = (predictCategory js env expense.description (cats.map (fun cat => cat.name))
        (issue (Call.expenseGetById id) w1)).1 ∧
      o.newCategory = some resolved ∧
      (∃ e ∈ w2.expenses, e.id = id) ∧
      (∀ e ∈ w2.expenses, e.id = id → e.category = some resolved) ∧
      o.previousCategory = some (match expense.category with
        | some c => if c = "" then "None" else c
        | none => "None") ∧
      ∀ results, (categorizeBatch js env (.array (pre ++ id :: post)) w).1.body
          = .results results → results[pre.length]? = some o := by
  obtain ⟨-, hres⟩ := categorizeBatch_item js env w w0 w1 w2 cats pre post id r1 o hall
    hpre hitem
  rcases processItem_cases js env (cats.map (fun cat => cat.name)) id w1 with
    ⟨-, -, herr⟩ | ⟨expense, hfind, he, hcase⟩
  · have := herr o (by rw [hitem])
    rw [hsuccess] at this
    exact absurd this (by decide)
  · rw [hitem] at he hcase
    rcases hcase with ⟨ho, -⟩ | ⟨ho, -⟩
    · simp only [Except.ok.injEq] at ho
      rw [ho] at hsuccess
      simp [errorOutcome] at hsuccess
    · simp only [Except.ok.injEq] at ho
      have hid : expense.id = id := by
        have := List.find?_some hfind
        simpa using this
      refine ⟨expense, _, hfind, ?_, rfl, ?_, ?_, ?_, ?_,
        fun results h => (hres results h).2⟩
      · intro hnot
        have hw0 : w0.expenses = w.expenses := by
          have := (getAll_tables env w).1
          rw [hall] at this
          exact this
        have hfilter := processItems_filter js env (cats.map (fun cat => cat.name))
          (fun i => i == id) pre [] w0
          (fun i hi => by
            have hne : i ≠ id := fun h => hnot (h ▸ hi)
            simpa using hne)
        rw [hpre] at hfilter
        have hfind' := find?_eq_of_filter_eq (fun e : Expense => e.id == id) _ _ hfilter
        rw [← hw0, ← hfind', hfind]
      · rw [ho]; rfl
      · simp only [] at he
        rw [he]
        refine ⟨_, List.mem_map_of_mem _ (List.mem_of_find?_eq_some hfind), ?_⟩
        simp [hid]
      · intro e hmem hid
        simp only [] at he
        rw [he] at hmem
        exact updateRows_category id _ _ _ _ _ e hmem hid
      · rw [ho, ← previousCategoryOf_eq]; rfl

/-- Witness for C16: the second item of the batch 7, 2 on a world holding
the uncategorized expense 2. -/
theorem categorizeBatch_success_outcome_fields_witness :
    ∃ expense resolved,
      (issue (Call.expenseGetById 7) (issue Call.categoryGetAll smallWorld)).expenses.find?
        (fun e => e.id == 2) = some expense ∧
      (2 ∉ [7] → smallWorld.expenses.find? (fun e => e.id == 2) = some expense) ∧
      resolved = (predictCategory asciiBuiltins quietEnv expense.description
        ((orderByFrequencyDesc smallWorld.categories).map (fun cat => cat.name))
        (issue (Call.expenseGetById 2)
          (issue (Call.expenseGetById 7) (issue Call.categoryGetAll smallWorld)))).1 ∧
      (successOutcome 2 "None" "food").newCategory = some resolved ∧
      (∃ e ∈ (processItem asciiBuiltins quietEnv
          ((orderByFrequencyDesc smallWorld.categories).map (fun cat => cat.name)) 2
          (issue (Call.expenseGetById 7) (issue Call.categoryGetAll smallWorld))).2.expenses,
        e.id = 2) ∧
      (∀ e ∈ (processItem asciiBuiltins quietEnv
          ((orderByFrequencyDesc smallWorld.categories).map (fun cat => cat.name)) 2
          (issue (Call.expenseGetById 7) (issue Call.categoryGetAll smallWorld))).2.expenses,
        e.id = 2 → e.category = some resolved) ∧
      (successOutcome 2 "None" "food").previousCategory = some (match expense.category with
        | some c => if c = "" then "None" else c
        | none => "None") ∧
      ∀ results, (categorizeBatch asciiBuiltins quietEnv (.array ([7] ++ 2 :: []))
          smallWorld).1.body = .results results →
        results[[7].length]? = some (successOutcome 2 "None" "food") :=
  categorizeBatch_success_outcome_fields asciiBuiltins quietEnv smallWorld
    (issue Call.categoryGetAll smallWorld)
    (issue (Call.expenseGetById 7) (issue Call.categoryGetAll smallWorld))
    (processItem asciiBuiltins quietEnv
      ((orderByFrequencyDesc smallWorld.categories).map (fun cat => cat.name)) 2
      (issue (Call.expenseGetById 7) (issue Call.categoryGetAll smallWorld))).2
    (orderByFrequencyDesc smallWorld.categories) [7] [] 2
    [errorOutcome 7 "Expense not found"] (successOutcome 2 "None" "food") (by rfl) (by rfl)
    (by rfl) (by rfl)

/-- C17: given the primary key on `expenses.id`, after `categorizeBatch`
every row of the table has the id, description, amount, expense_date and
created_at it had before (only the category may differ), for every request,
provider behaviour and failure pattern; and the rows whose id is not in the
batch are exactly as before. -/
theorem categorizeBatch_changes_only_category (js : Builtins) (env : Env)
    (expenseIds : IdsValue) (w : World)
    (hkey : (w.expenses.map Expense.id).Nodup) :
    (categorizeBatch js env expenseIds w).2.expenses.map Expense.otherColumns =
        w.expenses.map Expense.otherColumns ∧
      (categorizeBatch js env expenseIds w).2.expenses.filter
          (fun e => !expenseIds.ids.contains e.id) =
        w.expenses.filter (fun e => !expenseIds.ids.contains e.id) := by
  obtain ⟨hge, -⟩ := getAll_tables env w
  rcases categorizeBatch_world js env expenseIds w with h | h | ⟨names, h⟩
  · rw [h]; exact ⟨rfl, rfl⟩
  · rw [h, hge]; exact ⟨rfl, rfl⟩
  · rw [h]
    refine ⟨?_, ?_⟩
    · rw [processItems_otherColumns js env names _ _ _ (by rw [hge]; exact hkey), hge]
    · rw [processItems_filter js env names (fun i => !expenseIds.ids.contains i) _ _ _
        (fun i hi => by simpa using hi), hge]

/-- Witness for C17: the batch 2, 7 on a world with the expenses 2 and 5. -/
theorem categorizeBatch_changes_only_category_witness :
    (categorizeBatch asciiBuiltins quietEnv (.array [2, 7]) twoExpensesWorld).2.expenses.map
          Expense.otherColumns = twoExpensesWorld.expenses.map Expense.otherColumns ∧
      (categorizeBatch asciiBuiltins quietEnv (.array [2, 7]) twoExpensesWorld).2.expenses.filter
          (fun e => !(IdsValue.array [2, 7]).ids.contains e.id) =
        twoExpensesWorld.expenses.filter
          (fun e => !(IdsValue.array [2, 7]).ids.contains e.id) :=
  categorizeBatch_changes_only_category asciiBuiltins quietEnv (.array [2, 7])
    twoExpensesWorld (by decide)

/-! ## Lemmas on the `categories` table -/

theorem frequencyOf_upsert_self (categoryName : String) (rows : List Category) :
    frequencyOf categoryName (upsertCategory categoryName rows) =
      match frequencyOf categoryName rows with
      | none => some 1
      | some f => some (f + 1) := by
  induction rows with
  | nil => simp [frequencyOf, upsertCategory]
  | cons r rest ih =>
    by_cases hr : r.name = categoryName
    · simp [frequencyOf, upsertCategory, hr]
    · simp only [frequencyOf] at ih
      simp [frequencyOf, upsertCategory, hr, ih]

theorem frequencyOf_upsert_other (categoryName other : String) (rows : List Category)
    (hne : other ≠ categoryName) :
    frequencyOf other (upsertCategory categoryName rows) = frequencyOf other rows := by
  induction rows with
  | nil =>
    have : ¬ categoryName = other := fun h => hne h.symm
    simp [frequencyOf, upsertCategory, this]
  | cons r rest ih =>
    simp only [frequencyOf] at ih
    by_cases hr : r.name = categoryName
    · have : ¬ r.name = other := fun h => hne (h ▸ hr)
      simp [frequencyOf, upsertCategory, hr, hne.symm]
    · by_cases ho : r.name = other
      · subst ho
        simp [frequencyOf, upsertCategory, hr]
      · simp [frequencyOf, upsertCategory, hr, ho, ih]

theorem incrementUsage_categories (env : Env) (categoryName : String) (w : World)
    (hok : env.dbFails w.log.length (Call.categoryIncrementUsage categoryName) = false) :
    (Category.incrementUsage env categoryName w).2.categories =
        upsertCategory categoryName w.categories ∧
      (Category.incrementUsage env categoryName w).2.log.length = w.log.length + 1 := by
  simp [Category.incrementUsage, hok, issue]

theorem mem_insertByFrequency (c x : Category) (rows : List Category) :
    x ∈ insertByFrequency c rows ↔ x = c ∨ x ∈ rows := by
  induction rows with
  | nil => simp [insertByFrequency]
  | cons d rest ih =>
    unfold insertByFrequency
    split
    · simp
    · simp only [List.mem_cons, ih]
      constructor
      · rintro (h | h | h)
        · exact Or.inr (Or.inl h)
        · exact Or.inl h
        · exact Or.inr (Or.inr h)
      · rintro (h | h | h)
        · exact Or.inr (Or.inl h)
        · exact Or.inl h
        · exact Or.inr (Or.inr h)

theorem mem_orderByFrequencyDesc (x : Category) (rows : List Category) :
    x ∈ orderByFrequencyDesc rows ↔ x ∈ rows := by
  induction rows with
  | nil => simp [orderByFrequencyDesc]
  | cons c rest ih =>
    simp only [orderByFrequencyDesc, mem_insertByFrequency, ih, List.mem_cons]

theorem upsertCategory_name_mem (categoryName : String) (rows : List Category) :
    categoryName ∈ (upsertCategory categoryName rows).map (fun r => r.name) := by
  induction rows with
  | nil => simp [upsertCategory]
  | cons r rest ih =>
    by_cases hr : r.name = categoryName
    · simp [upsertCategory, hr]
    · simp only [upsertCategory, beq_iff_eq, hr, if_false, List.map_cons, List.mem_cons]
      exact Or.inr ih

theorem upsertCategory_names_mono (categoryName n : String) (rows : List Category)
    (h : n ∈ rows.map (fun r => r.name)) :
    n ∈ (upsertCategory categoryName rows).map (fun r => r.name) := by
  induction rows with
  | nil => simp at h
  | cons r rest ih =>
    simp only [List.map_cons, List.mem_cons] at h
    by_cases hr : r.name = categoryName
    · simp only [upsertCategory, beq_iff_eq, hr, if_true, List.map_cons, List.mem_cons]
      rcases h with h | h
      · exact Or.inl (h.trans hr)
      · exact Or.inr h
    · simp only [upsertCategory, beq_iff_eq, hr, if_false, List.map_cons, List.mem_cons]
      rcases h with h | h
      · exact Or.inl h
      · exact Or.inr (ih h)

theorem processItem_names_mono (js : Builtins) (env : Env) (names : List String) (id : Nat)
    (w : World) (n : String) (h : n ∈ w.categories.map (fun r => r.name)) :
    n ∈ (processItem js env names id w).2.categories.map (fun r => r.name) := by
  rcases processItem_cases js env names id w with
    ⟨-, hc, -⟩ | ⟨expense, -, -, ⟨-, hc⟩ | ⟨-, hc⟩⟩
  · rw [hc]; exact h
  · rw [hc]; exact h
  · rw [hc]; exact upsertCategory_names_mono _ _ _ h

theorem processItems_names_mono (js : Builtins) (env : Env) (names : List String)
    (ids : List Nat) :
    ∀ (acc : List Outcome) (w : World) (n : String),
      n ∈ w.categories.map (fun r => r.name) →
      n ∈ (processItems js env names ids acc w).2.categories.map (fun r => r.name) := by
  induction ids with
  | nil => intro acc w n h; exact h
  | cons id rest ih =>
    intro acc w n h
    have hitem := processItem_names_mono js env names id w n h
    unfold processItems
    split
    · next e w1 heq => rw [heq] at hitem; exact hitem
    · next o w1 heq => rw [heq] at hitem; exact ih _ w1 n hitem

theorem processItem_success_stored (js : Builtins) (env : Env) (names : List String)
    (id : Nat) (w w1 : World) (o : Outcome) (c : String)
    (hitem : processItem js env names id w = (.ok o, w1))
    (hs : o.status = "success") (hc : o.newCategory = some c) :
    c ∈ w1.categories.map (fun r => r.name) := by
  rcases processItem_cases js env names id w with
    ⟨-, -, herr⟩ | ⟨expense, -, -, ⟨ho, -⟩ | ⟨ho, hcat⟩⟩
  · have := herr o (by rw [hitem])
    rw [hs] at this
    exact absurd this (by decide)
  · rw [hitem] at ho
    simp only [Except.ok.injEq] at ho
    rw [ho] at hs
    simp [errorOutcome] at hs
  · rw [hitem] at ho hcat
    simp only [Except.ok.injEq] at ho
    rw [ho] at hc
    simp only [successOutcome, Option.some.injEq] at hc
    simp only [] at hcat
    rw [hcat, ← hc]
    exact upsertCategory_name_mem _ _

theorem processItems_success_stored (js : Builtins) (env : Env) (names : List String)
    (ids : List Nat) :
    ∀ (acc : List Outcome) (w w1 : World) (results : List Outcome),
      processItems js env names ids acc w = (.ok results, w1) →
      ∃ tail, results = acc ++ tail ∧
        ∀ o ∈ tail, o.status = "success" → ∀ c, o.newCategory = some c →
          c ∈ w1.categories.map (fun r => r.name) := by
  induction ids with
  | nil =>
    intro acc w w1 results h
    simp only [processItems, Prod.mk.injEq, Except.ok.injEq] at h
    exact ⟨[], by simp [h.1], fun o ho => absurd ho (List.not_mem_nil o)⟩
  | cons id rest ih =>
    intro acc w w1 results h
    unfold processItems at h
    split at h
    · cases h
    · next o w0 ho =>
      obtain ⟨tail, ht, hstored⟩ := ih _ _ _ _ h
      refine ⟨o :: tail, by simp [ht], ?_⟩
      intro o' ho' hs c hc
      rcases List.mem_cons.1 ho' with rfl | hmem
      · have h0 := processItem_success_stored js env names id w w0 o' c ho hs hc
        have hmono := processItems_names_mono js env names rest (acc ++ [o']) w0 c h0
        rw [h] at hmono
        exact hmono
      · exact hstored o' hmem hs c hc

theorem categorizeBatch_results (js : Builtins) (env : Env) (expenseIds : IdsValue)
    (w : World) (results : List Outcome)
    (h : (categorizeBatch js env expenseIds w).1.body = .results results) :
    ∃ names w0, processItems js env names expenseIds.ids [] w0 =
      (.ok results, (categorizeBatch js env expenseIds w).2) := by
  unfold categorizeBatch at h ⊢
  split at h
  · cases h
  · split at h
    · cases h
    · next cats w0 hall =>
      simp only [] at h
      split at h
      · cases h
      · next res w2 hres =>
        simp only [Body.results.injEq] at h
        subst h
        refine ⟨cats.map (fun cat => cat.name), w0, ?_⟩
        simp only [*, Bool.false_eq_true, if_false]

theorem keywordLoop_eq_find (text : String) (categories : List String)
    (entries : List (String × List String)) :
    keywordLoop text categories entries =
      ((entries.find? (qualifies text categories)).map Prod.fst).getD
        (defaultCategory categories) := by
  induction entries with
  | nil => rfl
  | cons e rest ih =>
    by_cases hq : qualifies text categories e = true
    · simp [keywordLoop, List.find?, hq]
    · simp [keywordLoop, List.find?, hq, ih]

/-! ## Claims on the category store and on determinism -/

/-- C18: reading the `categories` table as a map from name to frequency, a
`Category.incrementUsage(name)` call that does not reject inserts the name
with frequency 1 when it is absent and otherwise adds exactly 1 to its
frequency, and leaves the frequency of every other name unchanged; two
sequential calls with the same name raise its frequency by exactly 2 (to 2
when it was absent). -/
theorem incrementUsage_adds_one (env : Env) (categoryName : String) (w : World)
    (hok : env.dbFails w.log.length (Call.categoryIncrementUsage categoryName) = false) :
    (frequencyOf categoryName (Category.incrementUsage env categoryName w).2.categories =
        match frequencyOf categoryName w.categories with
        | none => some 1
        | some f => some (f + 1)) ∧
      (∀ other, other ≠ categoryName →
        frequencyOf other (Category.incrementUsage env categoryName w).2.categories =
          frequencyOf other w.categories) ∧
      (env.dbFails (w.log.length + 1) (Call.categoryIncrementUsage categoryName) = false →
        (frequencyOf categoryName (Category.incrementUsage env categoryName
            (Category.incrementUsage env categoryName w).2).2.categories =
          match frequencyOf categoryName w.categories with
          | none => some 2
          | some f => some (f + 2)) ∧
        ∀ other, other ≠ categoryName →
          frequencyOf other (Category.incrementUsage env categoryName
            (Category.incrementUsage env categoryName w).2).2.categories =
            frequencyOf other w.categories) := by
  obtain ⟨h1, hlen⟩ := incrementUsage_categories env categoryName w hok
  refine ⟨?_, ?_, ?_⟩
  · rw [h1]; exact frequencyOf_upsert_self categoryName w.categories
  · intro other hne
    rw [h1]; exact frequencyOf_upsert_other categoryName other w.categories hne
  · intro hok2
    obtain ⟨h2, -⟩ := incrementUsage_categories env categoryName
      (Category.incrementUsage env categoryName w).2 (by rw [hlen]; exact hok2)
    refine ⟨?_, ?_⟩
    · rw [h2, h1, frequencyOf_upsert_self, frequencyOf_upsert_self]
      cases frequencyOf categoryName w.categories <;> rfl
    · intro other hne
      rw [h2, h1, frequencyOf_upsert_other _ _ _ hne, frequencyOf_upsert_other _ _ _ hne]

/-- Witness for C18: "Food" has frequency 3 and gets 4, then 5; "Travel"
keeps frequency 1. -/
theorem incrementUsage_adds_one_witness :
    (frequencyOf "Food" (Category.incrementUsage quietEnv "Food" foodTravelWorld).2.categories =
        some 4 ∧
      frequencyOf "Travel" (Category.incrementUsage quietEnv "Food" foodTravelWorld).2.categories =
        frequencyOf "Travel" foodTravelWorld.categories) ∧
      frequencyOf "Food" (Category.incrementUsage quietEnv "Food"
        (Category.incrementUsage quietEnv "Food" foodTravelWorld).2).2.categories = some 5 :=
  ⟨⟨(incrementUsage_adds_one quietEnv "Food" foodTravelWorld rfl).1,
    (incrementUsage_adds_one quietEnv "Food" foodTravelWorld rfl).2.1 "Travel" (by decide)⟩,
    ((incrementUsage_adds_one quietEnv "Food" foodTravelWorld rfl).2.2 rfl).1⟩

/-- C19: for every item that `categorizeBatch` reports with status 'success'
and newCategory c, the `categories` table after the batch has a row named c,
and every `Category.getAll()` that succeeds on the world after the batch
returns a row whose name is c (so also equal to c ignoring case). -/
theorem categorizeBatch_success_category_stored (js : Builtins) (env : Env)
    (expenseIds : IdsValue) (w : World) (results : List Outcome) (o : Outcome) (c : String)
    (hres : (categorizeBatch js env expenseIds w).1.body = .results results)
    (ho : o ∈ results) (hs : o.status = "success") (hc : o.newCategory = some c) :
    ∀ (env1 : Env) (rows : List Category) (w1 : World),
      Category.getAll env1 (categorizeBatch js env expenseIds w).2 = (.ok rows, w1) →
      ∃ row ∈ rows, row.name = c ∧ js.toLowerCase row.name = js.toLowerCase c := by
  intro env1 rows w1 hall
  obtain ⟨names, w0, hitems⟩ := categorizeBatch_results js env expenseIds w results hres
  obtain ⟨tail, ht, hstored⟩ := processItems_success_stored js env names _ _ _ _ _ hitems
  have hmem : c ∈ (categorizeBatch js env expenseIds w).2.categories.map (fun r => r.name) :=
    hstored o (by simpa [ht] using ho) hs c hc
  obtain ⟨row, hrow, hname⟩ := List.mem_map.1 hmem
  have hrows : rows = orderByFrequencyDesc (categorizeBatch js env expenseIds w).2.categories := by
    rcases getAll_cases env1 (categorizeBatch js env expenseIds w).2 with ⟨-, h⟩ | ⟨-, h⟩
    · rw [h] at hall; cases hall
    · rw [h] at hall
      simp only [Prod.mk.injEq, Except.ok.injEq] at hall
      exact hall.1.symm
  refine ⟨row, ?_, hname, by rw [hname]⟩
  rw [hrows]
  exact (mem_orderByFrequencyDesc row _).2 hrow

/-- Witness for C19: on a world without categories the batch with the single
id 2 reports newCategory 'Other', and `Category.getAll()` afterwards returns
the row Other. -/
theorem categorizeBatch_success_category_stored_witness :
    ∃ row ∈ [({ name := "Other", frequency := 1 } : Category)],
      row.name = "Other" ∧
        asciiBuiltins.toLowerCase row.name = asciiBuiltins.toLowerCase "Other" :=
  categorizeBatch_success_category_stored asciiBuiltins quietEnv (.array [2]) noCategoriesWorld
    [successOutcome 2 "None" "Other"] (successOutcome 2 "None" "Other") "Other"
    (by decide) (by decide) (by rfl) (by rfl) quietEnv [{ name := "Other", frequency := 1 }]
    (Category.getAll quietEnv
      (categorizeBatch asciiBuiltins quietEnv (.array [2]) noCategoriesWorld).2).2 (by rfl)

/-- C20: `simpleKeywordCategorization` is total and deterministic on strings:
for every description and category list its value is the category of the
first qualifying entry of the keyword table, or else the default ('Miscellaneous',
the first entry, or 'Other'); the value is a non-empty string; and any two
calls whose descriptions and lists are equal return the same value. -/
theorem simpleKeywordCategorization_total_deterministic (js : Builtins)
    (description : String) (categories : List String) :
    simpleKeywordCategorization js description categories =
        ((keywordMap.find? (qualifies (js.toLowerCase description) categories)).map
          Prod.fst).getD (defaultCategory categories) ∧
      simpleKeywordCategorization js description categories ≠ "" ∧
      ∀ description1 categories1, description1 = description → categories1 = categories →
        simpleKeywordCategorization js description1 categories1 =
          simpleKeywordCategorization js description categories := by
  refine ⟨keywordLoop_eq_find _ _ _, ?_, ?_⟩
  · have h := simpleKeywordCategorization_truthy js description categories
    intro hempty
    rw [hempty] at h
    exact absurd h (by decide)
  · intro description1 categories1 hd hc
    rw [hd, hc]

/-- Witness for C20: two calls on "Lunch and gas" with the list
transportation, food return the same non-empty value. -/
theorem simpleKeywordCategorization_total_deterministic_witness :
    simpleKeywordCategorization asciiBuiltins "Lunch and gas" ["transportation", "food"] ≠ "" ∧
      simpleKeywordCategorization asciiBuiltins "Lunch and gas" ["transportation", "food"] =
        simpleKeywordCategorization asciiBuiltins "Lunch and gas" ["transportation", "food"] :=
  ⟨(simpleKeywordCategorization_total_deterministic asciiBuiltins "Lunch and gas"
      ["transportation", "food"]).2.1,
    (simpleKeywordCategorization_total_deterministic asciiBuiltins "Lunch and gas"
      ["transportation", "food"]).2.2 "Lunch and gas" ["transportation", "food"] rfl rfl⟩

/-! ## Lemmas on the shape of outcomes -/

theorem categorizeFound_by_failures (js : Builtins) (env : Env) (names : List String)
    (id : Nat) (expense : Expense) (w : World) :
    (env.dbFails (predictCategory js env expense.description names w).2.log.length
          (updateCall id expense (predictCategory js env expense.description names w).1)
          = true ∧
        (categorizeFound js env names id expense w).1 = errorOutcome id "AI service error" ∧
        (categorizeFound js env names id expense w).2.expenses = w.expenses) ∨
      (env.dbFails (predictCategory js env expense.description names w).2.log.length
          (updateCall id expense (predictCategory js env expense.description names w).1)
          = false ∧
        env.dbFails ((predictCategory js env expense.description names w).2.log.length + 1)
          (Call.categoryIncrementUsage (predictCategory js env expense.description names w).1)
          = true ∧
        (categorizeFound js env names id expense w).1 = errorOutcome id "AI service error" ∧
        (categorizeFound js env names id expense w).2.expenses =
          updateRows id expense.description expense.amount
            (some (predictCategory js env expense.description names w).1)
            expense.expense_date w.expenses) ∨
      (categorizeFound js env names id expense w).1 =
        successOutcome id (previousCategoryOf expense)
          (predictCategory js env expense.description names w).1 := by
  obtain ⟨he, -⟩ := predictCategory_tables js env expense.description names w
  cases hupd : env.dbFails (predictCategory js env expense.description names w).2.log.length
      (updateCall id expense (predictCategory js env expense.description names w).1) with
  | true =>
    left
    rw [categorizeFound_update_fail js env names id expense w hupd]
    exact ⟨rfl, rfl, he⟩
  | false =>
    cases hinc : env.dbFails
        ((predictCategory js env expense.description names w).2.log.length + 1)
        (Call.categoryIncrementUsage (predictCategory js env expense.description names w).1) with
    | true =>
      right; left
      refine ⟨rfl, rfl, categorizeFound_increment_fail js env names id expense w hupd hinc, ?_⟩
      unfold updateCall at hupd
      simp [categorizeFound, predictCategory_truthy, Expense.update, hupd,
        Category.incrementUsage, issue, hinc, he]
    | false =>
      right; right
      exact (categorizeFound_success js env names id expense w hupd hinc).1

theorem processItem_outcome_shape (js : Builtins) (env : Env) (names : List String)
    (id : Nat) (w w1 : World) (o : Outcome)
    (h : processItem js env names id w = (.ok o, w1)) :
    o = errorOutcome id "Expense not found" ∨ o = errorOutcome id "AI service error" ∨
      ∃ previousCategory newCategory, o = successOutcome id previousCategory newCategory := by
  have hread : env.dbFails w.log.length (Call.expenseGetById id) = false := by
    cases hr : env.dbFails w.log.length (Call.expenseGetById id) with
    | false => rfl
    | true => rw [processItem_read_fail js env names id w hr] at h; cases h
  cases hfind : w.expenses.find? (fun e => e.id == id) with
  | none =>
    rw [processItem_not_found js env names id w hread hfind] at h
    simp only [Prod.mk.injEq, Except.ok.injEq] at h
    exact Or.inl h.1.symm
  | some expense =>
    rw [processItem_found js env names id expense w hread hfind] at h
    simp only [Prod.mk.injEq, Except.ok.injEq] at h
    rw [← h.1]
    rcases categorizeFound_by_failures js env names id expense
      (issue (Call.expenseGetById id) w) with ⟨-, ho, -⟩ | ⟨-, -, ho, -⟩ | ho
    · exact Or.inr (Or.inl ho)
    · exact Or.inr (Or.inl ho)
    · exact Or.inr (Or.inr ⟨_, _, ho⟩)

theorem processItems_outcome_shapes (js : Builtins) (env : Env) (names : List String)
    (ids : List Nat) :
    ∀ (acc : List Outcome) (w w1 : World) (results : List Outcome),
      processItems js env names ids acc w = (.ok results, w1) →
      ∃ tail, results = acc ++ tail ∧
        ∀ o ∈ tail, o = errorOutcome o.id "Expense not found" ∨
          o = errorOutcome o.id "AI service error" ∨
          ∃ previousCategory newCategory,
            o = successOutcome o.id previousCategory newCategory := by
  induction ids with
  | nil =>
    intro acc w w1 results h
    simp only [processItems, Prod.mk.injEq, Except.ok.injEq] at h
    exact ⟨[], by simp [h.1], fun o ho => absurd ho (List.not_mem_nil o)⟩
  | cons id rest ih =>
    intro acc w w1 results h
    unfold processItems at h
    split at h
    · cases h
    · next o w0 ho =>
      obtain ⟨tail, ht, hshape⟩ := ih _ _ _ _ h
      refine ⟨o :: tail, by simp [ht], ?_⟩
      intro o' ho'
      rcases List.mem_cons.1 ho' with rfl | hmem
      · have hid := processItem_ok_id js env names id w w0 o' ho
        have := processItem_outcome_shape js env names id w w0 o' ho
        rw [hid]
        exact this
      · exact hshape o' hmem

/-! ## Further claims on the classifiers and on error outcomes -/

/-- C27: for every description, category list and provider behaviour the
string `predictCategory` returns is not empty; consequently no outcome of a
results array sent by `categorizeBatch` carries the message 'Could not
predict category': every outcome is 'Expense not found', 'AI service error'
or a success. -/
theorem predictCategory_never_empty (js : Builtins) (env : Env) :
    (∀ description categories w,
        (predictCategory js env description categories w).1 ≠ "") ∧
      ∀ expenseIds w results,
        (categorizeBatch js env expenseIds w).1.body = .results results →
        ∀ o ∈ results, o.message ≠ some "Could not predict category" ∧
          (o = errorOutcome o.id "Expense not found" ∨
            o = errorOutcome o.id "AI service error" ∨
            ∃ previousCategory newCategory,
              o = successOutcome o.id previousCategory newCategory) := by
  refine ⟨?_, ?_⟩
  · intro description categories w hempty
    have h := predictCategory_truthy js env description categories w
    rw [hempty] at h
    exact absurd h (by decide)
  · intro expenseIds w results hres o ho
    obtain ⟨names, w0, hitems⟩ := categorizeBatch_results js env expenseIds w results hres
    obtain ⟨tail, ht, hshape⟩ := processItems_outcome_shapes js env names _ _ _ _ _ hitems
    have hs := hshape o (by simpa [ht] using ho)
    refine ⟨?_, hs⟩
    rcases hs with h | h | ⟨p, c, h⟩ <;> rw [h] <;> simp [errorOutcome, successOutcome]

/-- Witness for C27: a blank reply and an empty category list give 'Other';
the batch 7, 2 on a world without categories has no 'Could not predict
category' outcome. -/
theorem predictCategory_never_empty_witness :
    (predictCategory asciiBuiltins (replyEnv " ") "Team offsite" [] emptyWorld).1 ≠ "" ∧
      ∀ o ∈ [errorOutcome 7 "Expense not found", successOutcome 2 "None" "Other"],
        o.message ≠ some "Could not predict category" ∧
          (o = errorOutcome o.id "Expense not found" ∨
            o = errorOutcome o.id "AI service error" ∨
            ∃ previousCategory newCategory,
              o = successOutcome o.id previousCategory newCategory) :=
  ⟨(predictCategory_never_empty asciiBuiltins (replyEnv " ")).1 "Team offsite" [] emptyWorld,
    (predictCategory_never_empty asciiBuiltins quietEnv).2 (.array [7, 2]) noCategoriesWorld
      [errorOutcome 7 "Expense not found", successOutcome 2 "None" "Other"] (by decide)⟩

/-- C28: for every category list that contains none of the eight lower-case
names of the keyword table, `simpleKeywordCategorization` returns the default
of the list ('Miscellaneous', the first entry or 'Other') for every
description: the description has no influence on the result. -/
theorem simpleKeywordCategorization_ignores_description (js : Builtins)
    (categories : List String)
    (hnone : ∀ name ∈ ["food", "transportation", "housing", "utilities", "entertainment",
      "healthcare", "shopping", "education"], name ∉ categories) :
    ∀ description1 description2,
      simpleKeywordCategorization js description1 categories =
          simpleKeywordCategorization js description2 categories ∧
        simpleKeywordCategorization js description1 categories =
          defaultCategory categories := by
  have hdefault : ∀ description,
      simpleKeywordCategorization js description categories = defaultCategory categories := by
    intro description
    have hq : ∀ e ∈ keywordMap,
        qualifies (js.toLowerCase description) categories e = false := by
      intro e he
      have hname : e.1 ∈ ["food", "transportation", "housing", "utilities", "entertainment",
          "healthcare", "shopping", "education"] := by
        have : e.1 ∈ keywordMap.map Prod.fst := List.mem_map_of_mem _ he
        exact this
      have hnot : categories.contains e.1 = false := by
        have := (contains_eq_true_iff_mem categories e.1).not.2 (hnone e.1 hname)
        simpa using this
      simp only [qualifies, hnot, Bool.false_and]
    have hloop := keywordLoop_append_of_not_qualifies (js.toLowerCase description)
      categories keywordMap [] hq
    unfold simpleKeywordCategorization
    rw [List.append_nil] at hloop
    rw [hloop]
    rfl
  intro description1 description2
  exact ⟨by rw [hdefault description1, hdefault description2], hdefault description1⟩

/-- Witness for C28: with the seeded names the descriptions "Lunch" and "Bus
ticket" both give the first entry, "Food". -/
theorem simpleKeywordCategorization_ignores_description_witness :
    simpleKeywordCategorization asciiBuiltins "Lunch" seededCategoryNames =
        simpleKeywordCategorization asciiBuiltins "Bus ticket" seededCategoryNames ∧
      simpleKeywordCategorization asciiBuiltins "Lunch" seededCategoryNames =
        defaultCategory seededCategoryNames :=
  simpleKeywordCategorization_ignores_description asciiBuiltins seededCategoryNames
    (by decide) "Lunch" "Bus ticket"

theorem processItem_error_record (js : Builtins) (env : Env) (names : List String)
    (id : Nat) (w w1 : World) (o : Outcome)
    (h : processItem js env names id w = (.ok o, w1)) (herror : o.status = "error") :
    w1.expenses = w.expenses ∨
      ∃ expense, w.expenses.find? (fun e => e.id == id) = some expense ∧
        env.dbFails
          (predictCategory js env expense.description names
            (issue (Call.expenseGetById id) w)).2.log.length
          (Call.expenseUpdate id expense.description expense.amount
            (some (predictCategory js env expense.description names
              (issue (Call.expenseGetById id) w)).1) expense.expense_date) = false ∧
        env.dbFails
          ((predictCategory js env expense.description names
            (issue (Call.expenseGetById id) w)).2.log.length + 1)
          (Call.categoryIncrementUsage (predictCategory js env expense.description names
            (issue (Call.expenseGetById id) w)).1) = true ∧
        w1.expenses = updateRows id expense.description expense.amount
          (some (predictCategory js env expense.description names
            (issue (Call.expenseGetById id) w)).1) expense.expense_date w.expenses := by
  have hread : env.dbFails w.log.length (Call.expenseGetById id) = false := by
    cases hr : env.dbFails w.log.length (Call.expenseGetById id) with
    | false => rfl
    | true => rw [processItem_read_fail js env names id w hr] at h; cases h
  cases hfind : w.expenses.find? (fun e => e.id == id) with
  | none =>
    rw [processItem_not_found js env names id w hread hfind] at h
    simp only [Prod.mk.injEq, Except.ok.injEq] at h
    left
    rw [← h.2]
    rfl
  | some expense =>
    rw [processItem_found js env names id expense w hread hfind] at h
    simp only [Prod.mk.injEq, Except.ok.injEq] at h
    rcases categorizeFound_by_failures js env names id expense
      (issue (Call.expenseGetById id) w) with ⟨-, -, he⟩ | ⟨hupd, hinc, -, he⟩ | ho
    · left
      rw [← h.2, he]
      rfl
    · right
      refine ⟨expense, rfl, hupd, hinc, ?_⟩
      rw [← h.2, he]
      rfl
    · rw [← h.1, ho] at herror
      simp [successOutcome] at herror

/-- Counterexample for C29: `Category.incrementUsage` rejects after
`Expense.update` succeeded.  The outcome of item 2 has status 'error', yet the
stored record of expense 2 carries the category "food" after the batch, while
it had none before. -/
theorem categorizeBatch_error_after_update :
    (categorizeBatch asciiBuiltins incrementFailEnv (.array [2]) smallWorld).1.body =
        .results [{ id := 2, status := "error", message := some "AI service error" }] ∧
      (categorizeBatch asciiBuiltins incrementFailEnv (.array [2]) smallWorld).2.expenses =
        [mkExpense 2 "Lunch and gas" (some "food")] ∧
      smallWorld.expenses = [mkExpense 2 "Lunch and gas" none] := by
  decide

/-- C29 (amended): for every batch item whose outcome has status 'error',
the `expenses` table is the same after the item as before it, except when
`Expense.update` succeeded and `Category.incrementUsage` then rejected: in
that case the row already carries the new category.  When the table is
untouched by the item and the id occurs only once in the batch, the rows with
that id are the same after the batch as before it. -/
theorem categorizeBatch_error_outcome_record (js : Builtins) (env : Env)
    (w w0 w1 w2 : World) (cats : List Category) (pre post : List Nat) (id : Nat)
    (r1 : List Outcome) (o : Outcome)
    (hall : Category.getAll env w = (.ok cats, w0))
    (hpre : processItems js env (cats.map (fun cat => cat.name)) pre [] w0 = (.ok r1, w1))
    (hitem : processItem js env (cats.map (fun cat => cat.name)) id w1 = (.ok o, w2))
    (herror : o.status = "error") :
    (w2.expenses = w1.expenses ∨
      ∃ expense, w1.expenses.find? (fun e => e.id == id) = some expense ∧
        env.dbFails
          (predictCategory js env expense.description (cats.map (fun cat => cat.name))
            (issue (Call.expenseGetById id) w1)).2.log.length
          (Call.expenseUpdate id expense.description expense.amount
            (some (predictCategory js env expense.description (cats.map (fun cat => cat.name))
              (issue (Call.expenseGetById id) w1)).1) expense.expense_date) = false ∧
        env.dbFails
          ((predictCategory js env expense.description (cats.map (fun cat => cat.name))
            (issue (Call.expenseGetById id) w1)).2.log.length + 1)
          (Call.categoryIncrementUsage
            (predictCategory js env expense.description (cats.map (fun cat => cat.name))
              (issue (Call.expenseGetById id) w1)).1) = true ∧
        w2.expenses = updateRows id expense.description expense.amount
          (some (predictCategory js env expense.description (cats.map (fun cat => cat.name))
            (issue (Call.expenseGetById id) w1)).1) expense.expense_date w1.expenses) ∧
      (w2.expenses = w1.expenses → id ∉ pre → id ∉ post →
        (categorizeBatch js env (.array (pre ++ id :: post)) w).2.expenses.filter
            (fun e => e.id == id) = w.expenses.filter (fun e => e.id == id)) := by
  refine ⟨processItem_error_record js env _ id w1 w2 o hitem herror, ?_⟩
  intro hsame hpreNot hpostNot
  have hw0 : w0.expenses = w.expenses := by
    have := (getAll_tables env w).1
    rw [hall] at this
    exact this
  have hkeep : ∀ (l : List Nat), id ∉ l → ∀ i ∈ l, (i == id) = false := by
    intro l hl i hi
    have hne : i ≠ id := fun h => hl (h ▸ hi)
    simpa using hne
  have hfpre := processItems_filter js env (cats.map (fun cat => cat.name))
    (fun i => i == id) pre [] w0 (hkeep pre hpreNot)
  rw [hpre] at hfpre
  have hfpost := processItems_filter js env (cats.map (fun cat => cat.name))
    (fun i => i == id) post (r1 ++ [o]) w2 (hkeep post hpostNot)
  have hstep := processItems_step js env _ pre post id [] r1 w0 w1 w2 o hpre hitem
  have hfinal : (categorizeBatch js env (.array (pre ++ id :: post)) w).2 =
      (processItems js env (cats.map (fun cat => cat.name)) post (r1 ++ [o]) w2).2 := by
    rw [categorizeBatch_array js env _ w _ _ (by simp) hall, hstep]
    split <;> next hres => rw [hres]
  rw [hfinal, hfpost, hsame]
  simp only [] at hfpre
  rw [hfpre, hw0]

/-- Witness for C29: every write rejects; item 2 of the batch 7, 2 gets an
'AI service error' outcome and the rows with id 2 are as before the batch. -/
theorem categorizeBatch_error_outcome_record_witness :
    (categorizeBatch asciiBuiltins writeFailEnv (.array ([7] ++ 2 :: [])) smallWorld).2.expenses.filter
        (fun e => e.id == 2) = smallWorld.expenses.filter (fun e => e.id == 2) :=
  (categorizeBatch_error_outcome_record asciiBuiltins writeFailEnv smallWorld
    (issue Call.categoryGetAll smallWorld)
    (issue (Call.expenseGetById 7) (issue Call.categoryGetAll smallWorld))
    (processItem asciiBuiltins writeFailEnv
      ((orderByFrequencyDesc smallWorld.categories).map (fun cat => cat.name)) 2
      (issue (Call.expenseGetById 7) (issue Call.categoryGetAll smallWorld))).2
    (orderByFrequencyDesc smallWorld.categories) [7] [] 2
    [errorOutcome 7 "Expense not found"] (errorOutcome 2 "AI service error")
    (by rfl) (by rfl) (by rfl) (by rfl)).2 (by rfl) (by decide) (by decide)

/-! ## Lemmas and claims on the browser utilities -/

set_option maxRecDepth 1000000 in
theorem hueOfColor_hslColor : ∀ h < 360, hueOfColor (hslColor h) = h := by
  decide

theorem generateRandomColorsLoop_eq (count : Nat) :
    ∀ (fuel i : Nat) (colors : List String), i + fuel = count →
      generateRandomColorsLoop count fuel i colors =
        colors ++ (List.range' i fuel).map (fun k => hslColor ((k * 137) % 360)) := by
  intro fuel
  induction fuel with
  | zero => intro i colors _; simp [generateRandomColorsLoop]
  | succ fuel ih =>
    intro i colors h
    have hlt : i < count := by omega
    simp only [generateRandomColorsLoop, hlt, if_true]
    rw [ih (i + 1) _ (by omega), List.range'_succ]
    simp

theorem generateRandomColors_eq (count : Nat) :
    generateRandomColors count =
      (List.range count).map (fun k => hslColor ((k * 137) % 360)) := by
  unfold generateRandomColors
  rw [generateRandomColorsLoop_eq count count 0 [] (by omega), List.range_eq_range']
  simp

theorem hue_injective (i j : Nat) (hi : i < 360) (hj : j < 360)
    (h : (i * 137) % 360 = (j * 137) % 360) : i = j := by
  omega

/-- C24: for every natural number `count`, `generateRandomColors(count)`
returns exactly `count` colour strings, the i-th being the `hsl` colour of
hue `(i * 137) mod 360`; for every `count` up to 360 the colours are pairwise
distinct. -/
theorem generateRandomColors_hues (count : Nat) :
    (generateRandomColors count).length = count ∧
      (∀ i, i < count →
        (generateRandomColors count)[i]? = some (hslColor ((i * 137) % 360)) ∧
        ((generateRandomColors count)[i]?).map hueOfColor = some ((i * 137) % 360)) ∧
      (count ≤ 360 → (generateRandomColors count).Nodup) := by
  rw [generateRandomColors_eq]
  refine ⟨by simp, ?_, ?_⟩
  · intro i hi
    have hget : ((List.range count).map (fun k => hslColor ((k * 137) % 360)))[i]? =
        some (hslColor ((i * 137) % 360)) := by
      simp [List.getElem?_map, List.getElem?_range hi]
    refine ⟨hget, ?_⟩
    rw [hget]
    simp only [Option.map_some']
    rw [hueOfColor_hslColor _ (Nat.mod_lt _ (by decide))]
  · intro hcount
    apply List.Nodup.map_on _ (List.nodup_range count)
    intro i hi j hj hcol
    have hi' : i < 360 := lt_of_lt_of_le (List.mem_range.1 hi) hcount
    have hj' : j < 360 := lt_of_lt_of_le (List.mem_range.1 hj) hcount
    have hhue := congrArg hueOfColor hcol
    rw [hueOfColor_hslColor _ (Nat.mod_lt _ (by decide)),
      hueOfColor_hslColor _ (Nat.mod_lt _ (by decide))] at hhue
    exact hue_injective i j hi' hj' hhue

/-- Witness for C24: four colours, with the hues 0, 137, 274 and 51. -/
theorem generateRandomColors_hues_witness :
    (generateRandomColors 4).Nodup ∧
      generateRandomColors 4 = ["hsl(0, 70%, 60%)", "hsl(137, 70%, 60%)",
        "hsl(274, 70%, 60%)", "hsl(51, 70%, 60%)"] :=
  ⟨(generateRandomColors_hues 4).2.2 (by decide), by decide⟩

theorem orderedInsert_sorted_of_agree {α : Type} (r r1 : α → α → Prop) [DecidableRel r]
    (htotal : ∀ a b, r1 a b ∨ r1 b a) (htrans : ∀ a b c, r1 a b → r1 b c → r1 a c)
    (a : α) :
    ∀ (l : List α), (∀ b ∈ l, (r a b ↔ r1 a b)) → l.Pairwise r1 →
      (l.orderedInsert r a).Pairwise r1 := by
  intro l
  induction l with
  | nil => intro _ _; simp
  | cons b l ih =>
    intro hagree hsorted
    have hb := hagree b (List.mem_cons_self _ _)
    rw [List.pairwise_cons] at hsorted
    by_cases hab : r a b
    · simp only [List.orderedInsert, hab, if_true]
      rw [List.pairwise_cons, List.pairwise_cons]
      refine ⟨?_, hsorted⟩
      intro x hx
      rcases List.mem_cons.1 hx with rfl | hx
      · exact hb.1 hab
      · exact htrans _ _ _ (hb.1 hab) (hsorted.1 x hx)
    · simp only [List.orderedInsert, hab, if_false]
      rw [List.pairwise_cons]
      refine ⟨?_, ih (fun x hx => hagree x (List.mem_cons_of_mem _ hx)) hsorted.2⟩
      intro x hx
      rcases (List.mem_orderedInsert r).1 hx with rfl | hx
      · rcases htotal x b with h | h
        · exact absurd (hb.2 h) hab
        · exact h
      · exact hsorted.1 x hx

theorem insertionSort_sorted_of_agree {α : Type} (r r1 : α → α → Prop) [DecidableRel r]
    (htotal : ∀ a b, r1 a b ∨ r1 b a) (htrans : ∀ a b c, r1 a b → r1 b c → r1 a c) :
    ∀ (l : List α), (∀ a ∈ l, ∀ b ∈ l, (r a b ↔ r1 a b)) →
      (l.insertionSort r).Pairwise r1 := by
  intro l
  induction l with
  | nil => intro _; simp
  | cons a l ih =>
    intro hagree
    simp only [List.insertionSort]
    apply orderedInsert_sorted_of_agree r r1 htotal htrans
    · intro b hb
      exact hagree a (List.mem_cons_self _ _) b
        (List.mem_cons_of_mem _ ((List.mem_insertionSort r).1 hb))
    · exact ih (fun x hx y hy =>
        hagree x (List.mem_cons_of_mem _ hx) y (List.mem_cons_of_mem _ hy))

/-- C25: for every list of expenses whose dates are all valid,
`sortExpensesByDate` returns a permutation of the list in which the time
value of `expense_date` never increases from an entry to any later entry
(newest first). -/
theorem sortExpensesByDate_newest_first (parseDate : String → Option Int)
    (expenses : List Expense)
    (hdates : ∀ e ∈ expenses, (parseDate e.expense_date).isSome = true) :
    (sortExpensesByDate parseDate expenses).Perm expenses ∧
      (sortExpensesByDate parseDate expenses).Pairwise (fun a b =>
        ∃ ta tb, parseDate a.expense_date = some ta ∧ parseDate b.expense_date = some tb ∧
          tb ≤ ta) := by
  have hvalid : ∀ e ∈ expenses, ∃ t, parseDate e.expense_date = some t :=
    fun e he => Option.isSome_iff_exists.1 (hdates e he)
  have hperm : (sortExpensesByDate parseDate expenses).Perm expenses :=
    List.perm_insertionSort _ expenses
  refine ⟨hperm, ?_⟩
  have hsorted : (sortExpensesByDate parseDate expenses).Pairwise (fun a b =>
      (parseDate b.expense_date).getD 0 ≤ (parseDate a.expense_date).getD 0) := by
    apply insertionSort_sorted_of_agree
    · intro a b; exact le_total _ _
    · intro a b c hab hbc; exact le_trans hbc hab
    · intro a ha b hb
      obtain ⟨ta, hta⟩ := hvalid a ha
      obtain ⟨tb, htb⟩ := hvalid b hb
      simp only [compareByDate, hta, htb, Option.getD_some]
      omega
  refine (List.Pairwise.and_mem.1 hsorted).imp ?_
  rintro a b ⟨ha, hb, hle⟩
  obtain ⟨ta, hta⟩ := hvalid a (hperm.mem_iff.1 ha)
  obtain ⟨tb, htb⟩ := hvalid b (hperm.mem_iff.1 hb)
  refine ⟨ta, tb, hta, htb, ?_⟩
  simpa [hta, htb] using hle

/-- Witness for C25: three expenses dated January 2024, March 2024 and
December 2023 come out as March, January, December. -/
theorem sortExpensesByDate_newest_first_witness :
    (sortExpensesByDate sampleParseDate
        [expenseOn 1 "2024-01-15", expenseOn 2 "2024-03-01", expenseOn 3 "2023-12-31"]).Perm
        [expenseOn 1 "2024-01-15", expenseOn 2 "2024-03-01", expenseOn 3 "2023-12-31"] ∧
      sortExpensesByDate sampleParseDate
        [expenseOn 1 "2024-01-15", expenseOn 2 "2024-03-01", expenseOn 3 "2023-12-31"] =
        [expenseOn 2 "2024-03-01", expenseOn 1 "2024-01-15", expenseOn 3 "2023-12-31"] :=
  ⟨(sortExpensesByDate_newest_first sampleParseDate
      [expenseOn 1 "2024-01-15", expenseOn 2 "2024-03-01", expenseOn 3 "2023-12-31"]
      (by decide)).1, by decide⟩

/-! ## Claims on `createExpense` and `updateExpense` -/

/-- C21: evaluation of the code on a create request without expenseDate.
Whatever the description, the amount and the category are, `createExpense`
answers 400 'Description, amount, and date are required' and leaves the world
as it was: no expense is stored, neither with the current date nor with any
other. -/
theorem createExpense_without_date_rejected (env : Env) (rt : Runtime)
    (description amount category : JsValue) (w : World) :
    createExpense env rt
        { description := description, amount := amount, category := category,
          expenseDate := .undefined } w =
      ({ status := 400, body := .error "Description, amount, and date are required" }, w) := by
  simp [createExpense, missingRequired, JsValue.isTruthy]

/-- Counterexample for C22: the body supplies a description, the numeric
amount 0 and a date, yet `createExpense` answers 400 and issues no call. -/
theorem createExpense_zero_amount_rejected :
    createExpense quietEnv sampleRuntime
        { description := .string "Coffee", amount := .number 0 0, category := .string "Food",
          expenseDate := .string "2024-01-15" } emptyWorld =
      ({ status := 400, body := .error "Description, amount, and date are required" },
        emptyWorld) := by
  decide

/-- C22 (amended): `createExpense` answers 400 'Description, amount, and date
are required' and leaves the world untouched exactly when at least one of
description, amount and expenseDate is falsy (missing, null, false, the empty
string or the number 0); a body whose three values are truthy is passed on to
`Expense.create` with its description, amount, category and expenseDate, and
is not answered 400. -/
theorem createExpense_guard (env : Env) (rt : Runtime) (body : ExpenseBody) (w : World) :
    ((body.description.isTruthy = false ∨ body.amount.isTruthy = false ∨
        body.expenseDate.isTruthy = false) →
      createExpense env rt body w =
        ({ status := 400, body := .error "Description, amount, and date are required" }, w)) ∧
    ((body.description.isTruthy = true ∧ body.amount.isTruthy = true ∧
        body.expenseDate.isTruthy = true) →
      (createExpense env rt body w).1.status ≠ 400 ∧
      ∃ later, (createExpense env rt body w).2.log =
        w.log ++ Call.expenseCreate body.description body.amount body.category
          body.expenseDate :: later) := by
  refine ⟨?_, ?_⟩
  · intro h
    have hm : missingRequired body = true := by
      rcases h with h | h | h <;> simp [missingRequired, h]
    simp [createExpense, hm]
  · rintro ⟨hd, ha, he⟩
    have hm : missingRequired body = false := by
      simp [missingRequired, hd, ha, he]
    simp only [createExpense, hm, Bool.false_eq_true, if_false, he, if_true]
    cases hc : env.dbFails w.log.length (Call.expenseCreate body.description body.amount
        body.category body.expenseDate) with
    | true =>
      simp only [Expense.create, hc, if_true]
      exact ⟨by decide, [], by simp [issue]⟩
    | false =>
      simp only [Expense.create, hc, Bool.false_eq_true, if_false]
      cases hcat : body.category.isTruthy with
      | false =>
        simp only [Bool.false_eq_true, if_false]
        exact ⟨by decide, [], by simp [issue]⟩
      | true =>
        simp only [if_true, Category.incrementUsage]
        split
        · next heq =>
          split at heq
          · simp only [Prod.mk.injEq] at heq
            refine ⟨by simp, [Call.categoryIncrementUsage (toColumn rt body.category)], ?_⟩
            rw [← heq.2]
            simp [issue]
          · cases heq
        · next heq =>
          split at heq
          · cases heq
          · simp only [Prod.mk.injEq] at heq
            refine ⟨by simp, [Call.categoryIncrementUsage (toColumn rt body.category)], ?_⟩
            rw [← heq.2]
            simp [issue]

/-- Witness for C22: a body without amount is answered 400; a body with the
three values goes to `Expense.create`. -/
theorem createExpense_guard_witness :
    createExpense quietEnv sampleRuntime
        { description := .string "Coffee", amount := .undefined, category := .string "Food",
          expenseDate := .string "2024-01-15" } emptyWorld =
        ({ status := 400, body := .error "Description, amount, and date are required" },
          emptyWorld) ∧
      ((createExpense quietEnv sampleRuntime
        { description := .string "Coffee", amount := .number 3 0, category := .string "Food",
          expenseDate := .string "2024-01-15" } emptyWorld).1.status ≠ 400 ∧
      ∃ later, (createExpense quietEnv sampleRuntime
        { description := .string "Coffee", amount := .number 3 0, category := .string "Food",
          expenseDate := .string "2024-01-15" } emptyWorld).2.log =
        emptyWorld.log ++ Call.expenseCreate (.string "Coffee") (.number 3 0) (.string "Food")
          (.string "2024-01-15") :: later) :=
  ⟨(createExpense_guard quietEnv sampleRuntime
      { description := .string "Coffee", amount := .undefined, category := .string "Food",
        expenseDate := .string "2024-01-15" } emptyWorld).1 (Or.inr (Or.inl rfl)),
    (createExpense_guard quietEnv sampleRuntime
      { description := .string "Coffee", amount := .number 3 0, category := .string "Food",
        expenseDate := .string "2024-01-15" } emptyWorld).2 ⟨rfl, rfl, rfl⟩⟩

/-- Counterexample for C23: expense 2 is stored under Food and the request
names Travel, but `Expense.update` rejects: the call answers 500 and
`Category.incrementUsage` is not called.  And a request whose category is the
empty string, which differs from Food, is answered 200 without a call of
`Category.incrementUsage`. -/
theorem updateExpense_no_increment_cases :
    (categorizedWorld.expenses.find? (fun e => e.id == 2)).map (fun e => e.category) =
        some (some "Food") ∧
      updateExpense writeFailEnv sampleRuntime 2
          { description := .undefined, amount := .undefined, category := .string "Travel",
            expenseDate := .undefined } categorizedWorld =
        ({ status := 500, body := .error "Failed to update expense" },
          { categorizedWorld with log := [Call.expenseGetById 2,
              Call.expenseUpdate 2 "Lunch and gas" "12.50" (some "Travel") "2024-01-15"] }) ∧
      (updateExpense quietEnv sampleRuntime 2
          { description := .undefined, amount := .undefined, category := .string "",
            expenseDate := .undefined } categorizedWorld).1.status = 200 ∧
      (updateExpense quietEnv sampleRuntime 2
          { description := .undefined, amount := .undefined, category := .string "",
            expenseDate := .undefined } categorizedWorld).2.log =
        [Call.expenseGetById 2,
          Call.expenseUpdate 2 "Lunch and gas" "12.50" (some "Food") "2024-01-15"] := by
  decide

/-- C23 (amended): for an update request whose read succeeds.  When the
expense does not exist, `updateExpense` answers 404 'Expense not found' and
the world only gains the log entry of the read: no write is issued.  When it
exists and `Expense.update` does not reject, the calls issued are the read,
the update and then `Category.incrementUsage` exactly once, with the request's
category, if that category is truthy (not missing, null or the empty string)
and differs from the stored one, and no `Category.incrementUsage` otherwise.
When it exists and `Expense.update` rejects, the call answers 500 'Failed to
update expense' and issues no `Category.incrementUsage`. -/
theorem updateExpense_increments_once (env : Env) (rt : Runtime) (id : Nat)
    (body : ExpenseBody) (w : World)
    (hread : env.dbFails w.log.length (Call.expenseGetById id) = false) :
    (w.expenses.find? (fun e => e.id == id) = none →
      updateExpense env rt id body w =
        ({ status := 404, body := .error "Expense not found" },
          { w with log := w.log ++ [Call.expenseGetById id] })) ∧
    (∀ existing, w.expenses.find? (fun e => e.id == id) = some existing →
      env.dbFails (w.log.length + 1) (updateExpenseCall rt id body existing) = false →
      (updateExpense env rt id body w).2.log =
          w.log ++ [Call.expenseGetById id, updateExpenseCall rt id body existing] ++
            (if body.category.isTruthy = true ∧
                strictEqualsStored body.category existing.category = false
              then [Call.categoryIncrementUsage (toColumn rt body.category)] else []) ∧
        ((updateExpense env rt id body w).2.log.drop w.log.length).countP
            Call.isIncrementUsage =
          if body.category.isTruthy = true ∧
              strictEqualsStored body.category existing.category = false
          then 1 else 0) ∧
    (∀ existing, w.expenses.find? (fun e => e.id == id) = some existing →
      env.dbFails (w.log.length + 1) (updateExpenseCall rt id body existing) = true →
      updateExpense env rt id body w =
        ({ status := 500, body := .error "Failed to update expense" },
          { w with log := w.log ++
              [Call.expenseGetById id, updateExpenseCall rt id body existing] })) := by
  refine ⟨?_, ?_, ?_⟩
  · intro hnone
    simp [updateExpense, Expense.getById, hread, hnone, issue]
  rotate_left
  · intro existing hfound hupd
    unfold updateExpenseCall at hupd
    simp [updateExpense, Expense.getById, hread, hfound, Expense.update, issue, hupd,
      updateExpenseCall]
  · intro existing hfound hupd
    have hlog : (updateExpense env rt id body w).2.log =
        w.log ++ [Call.expenseGetById id, updateExpenseCall rt id body existing] ++
          (if body.category.isTruthy = true ∧
              strictEqualsStored body.category existing.category = false
            then [Call.categoryIncrementUsage (toColumn rt body.category)] else []) := by
      unfold updateExpenseCall at hupd
      by_cases hcond : body.category.isTruthy = true ∧
          strictEqualsStored body.category existing.category = false
      · simp only [updateExpense, Expense.getById, hread, hfound, Expense.update, issue,
          List.length_append, List.length_singleton, hupd, Bool.false_eq_true, if_false,
          hcond.1, hcond.2, Bool.not_false, Bool.and_self, if_true, Category.incrementUsage,
          updateExpenseCall, and_self]
        split
        · next heq =>
          split at heq
          · simp only [Prod.mk.injEq] at heq
            rw [← heq.2]
            simp
          · cases heq
        · next heq =>
          split at heq
          · cases heq
          · simp only [Prod.mk.injEq] at heq
            rw [← heq.2]
            simp
      · have hif : (body.category.isTruthy && !strictEqualsStored body.category
            existing.category) = false := by
          cases h1 : body.category.isTruthy <;>
            cases h2 : strictEqualsStored body.category existing.category <;>
            simp_all
        simp only [updateExpense, Expense.getById, hread, hfound, Expense.update, issue,
          List.length_append, List.length_singleton, hupd, Bool.false_eq_true, if_false,
          hif, hcond, updateExpenseCall]
        simp
    refine ⟨hlog, ?_⟩
    rw [hlog]
    by_cases hcond : body.category.isTruthy = true ∧
        strictEqualsStored body.category existing.category = false
    · simp [hcond, List.append_assoc, Call.isIncrementUsage, updateExpenseCall]
    · simp [hcond, List.append_assoc, Call.isIncrementUsage, updateExpenseCall]

/-- Witness for C23: expense 9 does not exist; expense 2 is stored under Food
and the request names Travel. -/
theorem updateExpense_increments_once_witness :
    updateExpense quietEnv sampleRuntime 9
        { description := .undefined, amount := .undefined, category := .string "Travel",
          expenseDate := .undefined } categorizedWorld =
        ({ status := 404, body := .error "Expense not found" },
          { categorizedWorld with log := categorizedWorld.log ++ [Call.expenseGetById 9] }) ∧
      (updateExpense quietEnv sampleRuntime 2
        { description := .undefined, amount := .undefined, category := .string "Travel",
          expenseDate := .undefined } categorizedWorld).2.log =
        [Call.expenseGetById 2,
          Call.expenseUpdate 2 "Lunch and gas" "12.50" (some "Travel") "2024-01-15",
          Call.categoryIncrementUsage "Travel"] :=
  ⟨(updateExpense_increments_once quietEnv sampleRuntime 9
      { description := .undefined, amount := .undefined, category := .string "Travel",
        expenseDate := .undefined } categorizedWorld rfl).1 rfl,
    ((updateExpense_increments_once quietEnv sampleRuntime 2
      { description := .undefined, amount := .undefined, category := .string "Travel",
        expenseDate := .undefined } categorizedWorld rfl).2.1
      (mkExpense 2 "Lunch and gas" (some "Food")) rfl rfl).1⟩

/-! ## Lemmas and claim on the start-up -/

theorem initPass_pingCount (fails : Nat → Bool) (queries : List InitQuery) :
    pingCount (initPass fails queries).2 = pingCount queries + 1 := by
  unfold initPass
  split
  · simp [pingCount, List.count_append]
  · split
    · simp [pingCount, List.count_append, List.count_cons]
    · split
      · simp [pingCount, List.count_append, List.count_cons]
      · split <;> simp [pingCount, List.count_append, List.count_cons]

theorem initDatabaseLoop_pingCount (fails : Nat → Bool) (retries : Nat) :
    ∀ (fuel attempt : Nat) (queries : List InitQuery),
      pingCount (initDatabaseLoop fails retries fuel attempt queries).2 ≤
        pingCount queries + fuel := by
  intro fuel
  induction fuel with
  | zero => intro attempt queries; simp [initDatabaseLoop]
  | succ fuel ih =>
    intro attempt queries
    have hpass := initPass_pingCount fails queries
    unfold initDatabaseLoop
    split
    · split
      · next q heq => rw [heq] at hpass; simp only [] at hpass ⊢; omega
      · next q heq =>
        rw [heq] at hpass
        simp only [] at hpass
        split
        · simp only []; omega
        · have := ih (attempt + 1) q
          omega
    · simp only []; omega

theorem attemptDatabaseInit_step (fails : Nat → Bool) (s : Startup) :
    (attemptDatabaseInit fails s).currentAttempt = s.currentAttempt + 1 ∧
      pingCount (attemptDatabaseInit fails s).queries ≤ pingCount s.queries + 5 ∧
      ((attemptDatabaseInit fails s).timerPending = true →
        (attemptDatabaseInit fails s).currentAttempt < MAX_DB_INIT_ATTEMPTS) := by
  have hp : pingCount (initDatabase fails s.queries).2 ≤ pingCount s.queries + 5 :=
    initDatabaseLoop_pingCount fails 5 5 1 s.queries
  unfold attemptDatabaseInit
  split
  · next q heq =>
    rw [heq] at hp
    exact ⟨rfl, hp, fun h => by simp at h⟩
  · next q heq =>
    rw [heq] at hp
    simp only []
    split
    · next hlt => exact ⟨rfl, hp, fun _ => hlt⟩
    · exact ⟨rfl, hp, fun h => by simp at h⟩

theorem runTimers_bounds (fails : Nat → Bool) :
    ∀ (fuel : Nat) (s : Startup),
      (s.timerPending = true → s.currentAttempt < MAX_DB_INIT_ATTEMPTS) →
      s.currentAttempt ≤ MAX_DB_INIT_ATTEMPTS →
      MAX_DB_INIT_ATTEMPTS ≤ s.currentAttempt + fuel →
      (runTimers fails fuel s).timerPending = false ∧
        s.currentAttempt ≤ (runTimers fails fuel s).currentAttempt ∧
        (runTimers fails fuel s).currentAttempt ≤ MAX_DB_INIT_ATTEMPTS ∧
        pingCount (runTimers fails fuel s).queries + 5 * s.currentAttempt ≤
          pingCount s.queries + 5 * (runTimers fails fuel s).currentAttempt := by
  intro fuel
  induction fuel with
  | zero =>
    intro s hpending hle hfuel
    simp only [runTimers]
    refine ⟨?_, le_refl _, hle, le_refl _⟩
    cases ht : s.timerPending with
    | false => rfl
    | true => have := hpending ht; omega
  | succ fuel ih =>
    intro s hpending hle hfuel
    cases ht : s.timerPending with
    | false =>
      have hstop : runTimers fails (fuel + 1) s = s := by
        simp [runTimers, ht]
      rw [hstop]
      exact ⟨ht, le_refl _, hle, le_refl _⟩
    | true =>
      simp only [runTimers, ht, if_true]
      obtain ⟨hcur, hping, hnext⟩ := attemptDatabaseInit_step fails s
      have hlt := hpending ht
      obtain ⟨h1, h2, h3, h4⟩ := ih (attemptDatabaseInit fails s) hnext
        (by rw [hcur]; omega) (by rw [hcur]; omega)
      refine ⟨h1, by omega, h3, ?_⟩
      rw [hcur] at h4
      omega

/-- C26: evaluation of the code on a database that rejects every query of
the start-up.  `attemptDatabaseInit` runs 5 times and each run of
`initDatabase` issues 5 connection checks `SELECT 1`, so the start-up makes
25 connection attempts, more than the `MAX_DB_INIT_ATTEMPTS = 5` that the
comment on the constant gives as the maximum. -/
theorem serverStart_unreachable_pings :
    pingCount (serverStart (fun _ => true)).queries = 25 ∧
      (serverStart (fun _ => true)).currentAttempt = 5 ∧
      ¬ pingCount (serverStart (fun _ => true)).queries ≤ MAX_DB_INIT_ATTEMPTS := by
  decide

/-- Bounds on the start-up, whatever the database does: `attemptDatabaseInit`
runs at most `MAX_DB_INIT_ATTEMPTS` times, at most 25 connection checks
`SELECT 1` are issued, and no attempt is scheduled at the end; when every
query rejects there are exactly 5 runs and 25 connection checks; and after a
run whose initialisation succeeds no timer is scheduled. -/
theorem serverStart_attempts (fails : Nat → Bool) :
    (serverStart fails).timerPending = false ∧
      (serverStart fails).currentAttempt ≤ MAX_DB_INIT_ATTEMPTS ∧
      pingCount (serverStart fails).queries ≤ 25 ∧
      ((∀ n, fails n = true) →
        (serverStart fails).currentAttempt = 5 ∧
          pingCount (serverStart fails).queries = 25) ∧
      ∀ s : Startup, (initDatabase fails s.queries).1 = true →
        (attemptDatabaseInit fails s).timerPending = false ∧
          runTimers fails MAX_DB_INIT_ATTEMPTS (attemptDatabaseInit fails s) =
            attemptDatabaseInit fails s := by
  obtain ⟨hcur0, hping0, hnext⟩ := attemptDatabaseInit_step fails
    { currentAttempt := 0, queries := [], timerPending := false }
  have hcur : (attemptDatabaseInit fails
      { currentAttempt := 0, queries := [], timerPending := false }).currentAttempt = 1 := hcur0
  have hping : pingCount (attemptDatabaseInit fails
      { currentAttempt := 0, queries := [], timerPending := false }).queries ≤ 5 := hping0
  obtain ⟨h1, h2, h3, h4⟩ := runTimers_bounds fails MAX_DB_INIT_ATTEMPTS
    (attemptDatabaseInit fails { currentAttempt := 0, queries := [], timerPending := false })
    hnext (by rw [hcur]; decide) (by rw [hcur]; decide)
  refine ⟨h1, h3, ?_, ?_, ?_⟩
  · have h3' : (serverStart fails).currentAttempt ≤ 5 := h3
    have h4' : pingCount (serverStart fails).queries + 5 * 1 ≤
        pingCount (attemptDatabaseInit fails
          { currentAttempt := 0, queries := [], timerPending := false }).queries +
          5 * (serverStart fails).currentAttempt := by
      rw [hcur] at h4
      exact h4
    omega
  · intro hall
    have hf : fails = fun _ => true := funext hall
    subst hf
    decide
  · intro s hok
    have hp : (attemptDatabaseInit fails s).timerPending = false := by
      unfold attemptDatabaseInit
      split
      · rfl
      · next q heq => rw [heq] at hok; cases hok
    refine ⟨hp, ?_⟩
    simp [runTimers, MAX_DB_INIT_ATTEMPTS, hp]

/-- An instance of the bounds: the database accepts queries from the eighth
on; the second run of `attemptDatabaseInit` succeeds and nothing is scheduled
after it. -/
theorem serverStart_attempts_witness :
    ((serverStart (fun _ => true)).currentAttempt = 5 ∧
        pingCount (serverStart (fun _ => true)).queries = 25) ∧
      ((attemptDatabaseInit (fun n => decide (n < 7))
          { currentAttempt := 1, queries := [.ping, .ping, .ping, .ping, .ping],
            timerPending := true }).timerPending = false ∧
        runTimers (fun n => decide (n < 7)) MAX_DB_INIT_ATTEMPTS
          (attemptDatabaseInit (fun n => decide (n < 7))
            { currentAttempt := 1, queries := [.ping, .ping, .ping, .ping, .ping],
              timerPending := true }) =
          attemptDatabaseInit (fun n => decide (n < 7))
            { currentAttempt := 1, queries := [.ping, .ping, .ping, .ping, .ping],
              timerPending := true }) :=
  ⟨(serverStart_attempts (fun _ => true)).2.2.2.1 (fun _ => rfl),
    (serverStart_attempts (fun n => decide (n < 7))).2.2.2.2
      { currentAttempt := 1, queries := [.ping, .ping, .ping, .ping, .ping],
        timerPending := true } (by decide)⟩

end ExpenseTracker
